import Mathlib

/-
  Verification development for the SFS filesystem layer
  (src/a3/src/kern/fs/sfs/sfs_vnode.c).

  The C code is shallowly embedded: machine integers (u_int32_t, off_t) are
  modelled as Nat (all quantities involved are non-negative and far below
  2^32 on the runs the claims cover), kernel panics and failed asserts are
  modelled as a `Fault` error, and recoverable errno returns are modelled as
  a Nat result code carried in the `.ok` branch, mirroring the C convention
  of returning 0 on success and an errno otherwise.

  The block device collaborator (sfs_rblock / sfs_wblock) is modelled as a
  reliable store: reads succeed and writes succeed, with every write
  appended to a log so that theorems can state "nothing was written".
  Directory-entry I/O (sfs_readdir / sfs_writedir) transfers exactly one
  fixed-size record at offset slot * sizeof(struct sfs_dir) through sfs_io
  and panics on a short transfer, so the directory engine is embedded at
  record granularity over a list of entries; a per-slot failure oracle
  (failSlots) stands in for device write failures on directory slots.
-/

namespace SFS

/-! Constants from sfs.h (standard OS/161 SFS layout, asserted by the code:
    SFS_DBPERIDB * sizeof(u_int32_t) == SFS_BLOCKSIZE). -/

def SFS_BLOCKSIZE : Nat := 512
def SFS_NDIRECT : Nat := 15
def SFS_DBPERIDB : Nat := 128
def SFS_NOINO : Nat := 0
def SFS_NAMELEN : Nat := 60
def SFS_TYPE_INVAL : Nat := 0
def SFS_TYPE_FILE : Nat := 1
def SFS_TYPE_DIR : Nat := 2
def SFS_ROOT_LOCATION : Nat := 1

/-! Error codes from kern/errno.h. The claims depend only on the codes being
    distinguishable, not on their numeric values. -/

def EINVAL : Nat := 8
def ENOMEM : Nat := 3
def ENOENT : Nat := 19
def EEXIST : Nat := 20
def ENAMETOOLONG : Nat := 23
def ENOSPC : Nat := 26
/-- Device I/O error code (EIO in kern/errno.h). -/
def EIOdev : Nat := 32
def EBUSY : Nat := 31
def ENOTDIR : Nat := 21
def EISDIR : Nat := 22
def EUNIMP : Nat := 4

/-- Fatal faults: kernel panics and failed asserts in the C code.  These
    abort the operation with no result; they are kept distinct so theorems
    can name the exact panic site. -/
inductive Fault where
  /-- panic in sfs_balloc: allocated block out of range. -/
  | ballocRange : Fault
  /-- panic in sfs_bused: block number out of range. -/
  | busedRange : Fault
  /-- panic in sfs_bmap: nonzero data block marked free in the bitmap. -/
  | dataBlockFree : Fault
  /-- assert in sfs_partialio: hole encountered while writing. -/
  | holeOnWrite : Fault
  /-- assert in sfs_partialio: skipstart + len exceeds the block size. -/
  | partialLen : Fault
  /-- assert in sfs_blockio: residue smaller than one block. -/
  | blockioResid : Fault
  /-- assert in sfs_io when clamping a read: residue not larger than the
      excess past EOF. -/
  | clampAssert : Fault
  /-- assert in sfs_io: offset not block-aligned after the leading
      partial transfer. -/
  | alignAssert : Fault
  /-- assert in sfs_io: residue not below one block after the whole-block
      loop. -/
  | residAssert : Fault
  /-- assert in sfs_dir_findname: a name appeared twice in one directory. -/
  | dupName : Fault
  /-- panic in sfs_lookonce: link count of a file found in a directory is
      zero. -/
  | zeroLink : Fault
  /-- model fault: loading an inode that the model does not carry. -/
  | missingInode : Fault
  /-- assert in sfs_rename: looked-up object is not a plain file. -/
  | renameType : Fault
  /-- panic in sfs_rename: recovery unlink of the new entry also failed. -/
  | renameRecovery : Fault
  /-- assert in sfs_rename: link count zero before the final decrement. -/
  | renameZeroLink : Fault
  /-- assert in sfs_reclaim: refcount not above one on the busy path. -/
  | refAssert : Fault
  /-- panic in sfs_reclaim: vnode being reclaimed is not in the table. -/
  | tableMissing : Fault
  deriving DecidableEq

instance {ε α : Type} [DecidableEq ε] [DecidableEq α] :
    DecidableEq (Except ε α) := fun a b =>
  match a, b with
  | .ok x, .ok y =>
      if h : x = y then .isTrue (by rw [h]) else
        .isFalse (fun hc => h (by cases hc; rfl))
  | .ok _, .error _ => .isFalse (fun hc => by cases hc)
  | .error _, .ok _ => .isFalse (fun hc => by cases hc)
  | .error e, .error f =>
      if h : e = f then .isTrue (by rw [h]) else
        .isFalse (fun hc => h (by cases hc; rfl))

/-! ## Directory engine (entry granularity)

    struct sfs_dir is { sfd_ino : u_int32_t, sfd_name : char[SFS_NAMELEN] }.
    Names are modelled as Lean strings; the C code forces a null at byte
    SFS_NAMELEN-1 before comparing, which is the identity on any name that
    was stored through sfs_dir_link (link rejects longer names with
    ENAMETOOLONG), so string equality matches strcmp on all reachable
    directory contents. -/

structure SfsDirEnt where
  sfd_ino : Nat
  sfd_name : String
  deriving DecidableEq

/-- Empty directory entry: the bzero'd record sfs_dir_unlink writes. -/
def emptyDirEnt : SfsDirEnt := { sfd_ino := SFS_NOINO, sfd_name := "" }

/-- In-memory view of a loaded file vnode, as far as the directory-level
    operations touch it: sfi_linkcount, sfi_type and sv_dirty. -/
structure FileMeta where
  linkcount : Nat
  ftype : Nat
  dirty : Bool
  deriving DecidableEq

/-- State of one directory vnode together with the file vnodes reachable
    from it.  `entries` is the directory's slot array (its length is
    sfs_dir_nentries, i.e. sfi_size / sizeof(struct sfs_dir)).  `failSlots`
    is the device-failure oracle: writing a directory slot listed there
    fails with EIOdev and leaves the slot unchanged.  `files` maps inode
    numbers to the metadata of the corresponding vnodes. -/
structure DirSt where
  entries : List SfsDirEnt
  dtype : Nat
  failSlots : List Nat
  files : List (Nat × FileMeta)
  deriving DecidableEq

/-- Write entry `sd` into slot `slot` of the entry array, extending the
    array when the slot is at (or past) the end.  sfs_writedir writes at
    byte offset slot * sizeof(struct sfs_dir) through sfs_io, which
    overwrites an existing slot in place and extends the directory (the
    size-update branch of sfs_io) when writing at the end; any gap created
    reads back as zeroed bytes, i.e. as empty entries. -/
def writeSlot (l : List SfsDirEnt) (sd : SfsDirEnt) (slot : Nat) :
    List SfsDirEnt :=
  if slot < l.length then l.set slot sd
  else l ++ List.replicate (slot - l.length) emptyDirEnt ++ [sd]

/-- sfs_writedir at entry granularity, with the per-slot failure oracle. -/
def sfs_writedir (st : DirSt) (sd : SfsDirEnt) (slot : Nat) :
    Nat × DirSt :=
  if slot ∈ st.failSlots then (EIOdev, st)
  else (0, { st with entries := writeSlot st.entries sd slot })

/-- sfs_dir_nentries: number of slots of the directory. -/
def sfs_dir_nentries (st : DirSt) : Nat := st.entries.length

/-- Scan loop of sfs_dir_findname.  `i` is the slot index of the head of
    the remaining list, `found` carries (ino, slot) of a previous match and
    `empty` the last empty slot seen so far; each empty slot overwrites
    `empty`, exactly as the C loop overwrites *emptyslot.  A second match
    trips assert(found==0). -/
def findnameScan (name : String) :
    List SfsDirEnt → Nat → Option (Nat × Nat) → Option Nat →
    Except Fault (Option (Nat × Nat) × Option Nat)
  | [], _, found, empty => .ok (found, empty)
  | e :: rest, i, found, empty =>
    if e.sfd_ino = SFS_NOINO then
      findnameScan name rest (i + 1) found (some i)
    else if e.sfd_name = name then
      match found with
      | some _ => .error .dupName
      | none => findnameScan name rest (i + 1) (some (e.sfd_ino, i)) empty
    else
      findnameScan name rest (i + 1) found empty

/-- sfs_dir_findname: returns (result, ino, slot, emptyslot).  result is 0
    when the name was found and ENOENT otherwise; emptyslot is reported in
    either case. -/
def sfs_dir_findname (st : DirSt) (name : String) :
    Except Fault (Nat × Option Nat × Option Nat × Option Nat) :=
  match findnameScan name st.entries 0 none none with
  | .error f => .error f
  | .ok (some (ino, slot), empty) => .ok (0, some ino, some slot, empty)
  | .ok (none, empty) => .ok (ENOENT, none, none, empty)

/-- sfs_dir_link: refuse an existing name with EEXIST and an over-long name
    with ENAMETOOLONG, then write the new entry into the reported empty
    slot, or append at slot sfs_dir_nentries when none was reported. -/
def sfs_dir_link (st : DirSt) (name : String) (ino : Nat) :
    Except Fault (Nat × Option Nat × DirSt) :=
  match sfs_dir_findname st name with
  | .error f => .error f
  | .ok (r, _, _, empty) =>
    if r ≠ 0 ∧ r ≠ ENOENT then .ok (r, none, st)
    else if r = 0 then .ok (EEXIST, none, st)
    else if SFS_NAMELEN < name.length + 1 then .ok (ENAMETOOLONG, none, st)
    else
      let slot := match empty with
        | some s => s
        | none => sfs_dir_nentries st
      let res := sfs_writedir st { sfd_ino := ino, sfd_name := name } slot
      .ok (res.1, some slot, res.2)

/-- sfs_dir_unlink: overwrite the slot with the empty sentinel entry. -/
def sfs_dir_unlink (st : DirSt) (slot : Nat) : Nat × DirSt :=
  sfs_writedir st emptyDirEnt slot

/-- Lookup of a loaded vnode's metadata by inode number (the in-memory
    side of sfs_loadvnode, restricted to what the directory operations
    read and write). -/
def lookupFile (st : DirSt) (ino : Nat) : Option FileMeta :=
  (st.files.find? (fun p => p.1 = ino)).map (fun p => p.2)

/-- Write back a file's metadata. -/
def setFile (st : DirSt) (ino : Nat) (m : FileMeta) : DirSt :=
  { st with files := st.files.map (fun p => if p.1 = ino then (p.1, m) else p) }

/-- sfs_lookonce: find the name, load the vnode, and panic when the loaded
    vnode's link count is zero.  Returns (result, (ino, slot, meta)). -/
def sfs_lookonce (st : DirSt) (name : String) :
    Except Fault (Nat × Option (Nat × Nat × FileMeta)) :=
  match sfs_dir_findname st name with
  | .error f => .error f
  | .ok (r, oino, oslot, _) =>
    if r ≠ 0 then .ok (r, none)
    else
      match oino, oslot with
      | some ino, some slot =>
        match lookupFile st ino with
        | none => .error .missingInode
        | some m =>
          if m.linkcount = 0 then .error .zeroLink
          else .ok (0, some (ino, slot, m))
      | _, _ => .ok (r, none)

/-- Current link count of a loaded vnode (0 when the model carries no such
    inode; the theorems that read it always require presence). -/
def getLinkcount (st : DirSt) (ino : Nat) : Nat :=
  match lookupFile st ino with
  | some m => m.linkcount
  | none => 0

/-- Set a vnode's link count and mark it dirty, as the repeated pattern
    sfi_linkcount = n; sv_dirty = 1 in the C code. -/
def setLinkcount (st : DirSt) (ino : Nat) (n : Nat) : DirSt :=
  { st with files := st.files.map (fun p =>
      if p.1 = ino then (p.1, { p.2 with linkcount := n, dirty := true })
      else p) }

/-- Tail of sfs_rename after the new link is in and the link count was
    incremented (st2): unlink the old slot; on failure jump to puke_harder
    (undo the new entry, then decrement the link count back); on success
    assert the count positive and decrement it. -/
def sfs_rename_finish (st2 : DirSt) (ino slot1 slot2 : Nat) :
    Except Fault (Nat × DirSt) :=
  let u1 := sfs_dir_unlink st2 slot1
  if u1.1 ≠ 0 then
    -- goto puke_harder: undo the new entry, then linkcount--
    let u2 := sfs_dir_unlink u1.2 slot2
    if u2.1 ≠ 0 then .error .renameRecovery
    else .ok (u1.1, setLinkcount u2.2 ino (getLinkcount u2.2 ino - 1))
  else
    -- assert(linkcount > 0), then linkcount--, dirty
    let st3 := u1.2
    if getLinkcount st3 ino = 0 then .error .renameZeroLink
    else .ok (0, setLinkcount st3 ino (getLinkcount st3 ino - 1))

/-- sfs_rename, single-directory version (the source asserts d1 == d2 and
    that the directory is the root; the model is that one directory).
    The refcount bookkeeping (VOP_DECREF of g1) and the vnode locks are
    outside the entry-level model. -/
def sfs_rename (st : DirSt) (n1 n2 : String) :
    Except Fault (Nat × DirSt) :=
  match sfs_lookonce st n1 with
  | .error f => .error f
  | .ok (r, info) =>
    if r ≠ 0 then .ok (r, st)
    else
      match info with
      | none => .ok (r, st)
      | some (ino, slot1, m) =>
        -- assert(g1->sv_i.sfi_type == SFS_TYPE_FILE)
        if m.ftype ≠ SFS_TYPE_FILE then .error .renameType
        else
          match sfs_dir_link st n2 ino with
          | .error f => .error f
          | .ok (r2, oslot2, st1) =>
            if r2 ≠ 0 then .ok (r2, st1)   -- goto puke
            else
              -- linkcount++, dirty; then handle the unlink of the old slot
              sfs_rename_finish
                (setLinkcount st1 ino (getLinkcount st1 ino + 1))
                ino slot1 (oslot2.getD 0)

/-- Directory-reading uio state for sfs_getdirentry: uio_offset is used as
    the slot index, uio_resid counts the bytes still wanted. -/
structure DirUio where
  uio_offset : Nat
  uio_resid : Nat
  deriving DecidableEq

/-- sfs_getdirentry: with the uio offset as the slot index, an index at or
    past sfs_dir_nentries returns success with the uio untouched; otherwise
    the entry's name is copied out (uiomove moves at most the residue) and
    the offset is set to slot + 1. -/
def sfs_getdirentry (st : DirSt) (uio : DirUio) :
    Except Fault (Nat × DirUio) :=
  if st.dtype ≠ SFS_TYPE_DIR then .ok (ENOTDIR, uio)
  else
    let slot := uio.uio_offset
    if sfs_dir_nentries st ≤ slot then .ok (0, uio)
    else
      let e := st.entries.getD slot emptyDirEnt
      let moved := min e.sfd_name.length uio.uio_resid
      .ok (0, { uio_offset := slot + 1, uio_resid := uio.uio_resid - moved })

/-- sfs_rmdir as written in the source: an unimplemented stub that ignores
    both arguments and returns EUNIMP. -/
def sfs_rmdir (st : DirSt) (name : String) : Nat × DirSt :=
  let _ := name
  (EUNIMP, st)

/-! ## Block allocator and block map -/

/-- On-disk inode (struct sfs_inode) together with the vnode dirty flag
    (sv_dirty); the pair of fields every sfs_bmap / sfs_io path reads and
    writes. -/
structure SVnode where
  sfi_type : Nat
  sfi_size : Nat
  sfi_linkcount : Nat
  sfi_direct : List Nat
  sfi_indirect : Nat
  sv_dirty : Bool
  deriving DecidableEq

/-- Filesystem-wide state: the free-block bitmap (as the list of blocks
    marked used), the blocks bitmap_alloc will hand out in order, the disk
    contents of pointer blocks (indirect blocks), the total block count of
    the volume (sp_nblocks) and a log of every block written through
    sfs_wblock. -/
structure Sfs where
  used : List Nat
  freelist : List Nat
  idata : List (Nat × List Nat)
  nblocks : Nat
  log : List Nat
  deriving DecidableEq

/-- Disk read of a pointer block: the stored contents, or a zeroed block
    for a block the model never wrote (sfs_clearblock zeroes fresh
    blocks). -/
def readIdata (fs : Sfs) (b : Nat) : List Nat :=
  match fs.idata.find? (fun p => p.1 = b) with
  | some p => p.2
  | none => List.replicate SFS_DBPERIDB 0

/-- Disk write of a pointer block (sfs_wblock on an indirect block). -/
def writeIdata (fs : Sfs) (b : Nat) (content : List Nat) : Sfs :=
  { fs with idata := (b, content) :: fs.idata, log := b :: fs.log }

/-- sfs_balloc: take the next free block, mark it used, panic when it is
    out of range, and zero it (sfs_clearblock, a disk write).  Returns
    (result, block, fs). -/
def sfs_balloc (fs : Sfs) : Except Fault (Nat × Nat × Sfs) :=
  match fs.freelist with
  | [] => .ok (ENOSPC, 0, fs)
  | b :: rest =>
    if fs.nblocks ≤ b then .error .ballocRange
    else
      .ok (0, b,
        { used := b :: fs.used, freelist := rest,
          idata := (b, List.replicate SFS_DBPERIDB 0) :: fs.idata,
          nblocks := fs.nblocks, log := b :: fs.log })

/-- sfs_bfree: clear the block's bit in the bitmap. -/
def sfs_bfree (fs : Sfs) (b : Nat) : Sfs :=
  { fs with used := fs.used.erase b }

/-- sfs_bused: panic on an out-of-range block, otherwise report the bit. -/
def sfs_bused (fs : Sfs) (b : Nat) : Except Fault Bool :=
  if fs.nblocks ≤ b then .error .busedRange
  else .ok (b ∈ fs.used)

/-- Final hand-back step of sfs_bmap: panic when a nonzero block is marked
    free, otherwise return it as *diskblock with result 0. -/
def bmapHandback (block : Nat) (sv : SVnode) (fs : Sfs) :
    Except Fault (Nat × Option Nat × SVnode × Sfs) :=
  if block ≠ 0 then
    match sfs_bused fs block with
    | .error f => .error f
    | .ok u => if u then .ok (0, some block, sv, fs) else .error .dataBlockFree
  else .ok (0, some block, sv, fs)

/-- Indirect-block step of sfs_bmap: when no indirect block exists,
    allocate one (zero-filled); otherwise read it from disk.  Returns
    (result, sv, fs, idbuf). -/
def sfs_bmap_idstep (sv : SVnode) (fs : Sfs) :
    Except Fault (Nat × SVnode × Sfs × List Nat) :=
  if sv.sfi_indirect = 0 then
    match sfs_balloc fs with
    | .error f => .error f
    | .ok (r, idb, fs1) =>
      if r ≠ 0 then .ok (r, sv, fs1, [])
      else
        .ok (0, { sv with sfi_indirect := idb, sv_dirty := true },
             fs1, List.replicate SFS_DBPERIDB 0)
  else .ok (0, sv, fs, readIdata fs sv.sfi_indirect)

/-- sfs_bmap: translate logical file block `fileblock` to a disk block,
    allocating when `doalloc` is set.  Returns (result, *diskblock, sv, fs);
    *diskblock is `none` on the paths that return an error before writing
    it. -/
def sfs_bmap (sv : SVnode) (fs : Sfs) (fileblock : Nat) (doalloc : Bool) :
    Except Fault (Nat × Option Nat × SVnode × Sfs) :=
  if fileblock < SFS_NDIRECT then
    let block := sv.sfi_direct.getD fileblock 0
    if block = 0 ∧ doalloc then
      match sfs_balloc fs with
      | .error f => .error f
      | .ok (r, b, fs1) =>
        if r ≠ 0 then .ok (r, none, sv, fs1)
        else
          let sv1 := { sv with sfi_direct := sv.sfi_direct.set fileblock b,
                               sv_dirty := true }
          bmapHandback b sv1 fs1
    else bmapHandback block sv fs
  else
    -- fileblock -= SFS_NDIRECT
    let fb := fileblock - SFS_NDIRECT
    let idnum := fb / SFS_DBPERIDB
    let idoff := fb % SFS_DBPERIDB
    if 0 < idnum then .ok (EINVAL, none, sv, fs)
    else
      let idblock := sv.sfi_indirect
      if idblock = 0 ∧ ¬doalloc then
        -- pretend the indirect block is filled with zeros
        .ok (0, some 0, sv, fs)
      else
        match sfs_bmap_idstep sv fs with
        | .error f => .error f
        | .ok (r, sv1, fs1, idbuf) =>
          if r ≠ 0 then .ok (r, none, sv1, fs1)
          else
            let block := idbuf.getD idoff 0
            if block = 0 ∧ doalloc then
              match sfs_balloc fs1 with
              | .error f => .error f
              | .ok (r2, b, fs2) =>
                if r2 ≠ 0 then .ok (r2, none, sv1, fs2)
                else
                  let idbuf2 := idbuf.set idoff b
                  let fs3 := writeIdata fs2 sv1.sfi_indirect idbuf2
                  bmapHandback b sv1 fs3
            else bmapHandback block sv1 fs1

/-! ## I/O engine

    sfs_partialio / sfs_blockio / sfs_io.  uiomove and the device transfer
    primitives are modelled as succeeding and moving exactly the requested
    bytes; a transfer of n bytes advances uio_offset by n and shrinks
    uio_resid by n, which is all the engine's arithmetic observes.  The
    embedded names carry an `_m` suffix. -/

inductive UioRW where
  | read : UioRW
  | write : UioRW
  deriving DecidableEq

structure UioSt where
  uio_offset : Nat
  uio_resid : Nat
  uio_rw : UioRW
  deriving DecidableEq

structure IoSt where
  sv : SVnode
  fs : Sfs
  uio : UioSt
  deriving DecidableEq

/-- Advance the uio by a transfer of `n` bytes (uiomove / uiomovezeros /
    the aligned-block transfer of sfs_rwblock after offset restoration). -/
def uioAdvance (u : UioSt) (n : Nat) : UioSt :=
  { u with uio_offset := u.uio_offset + n, uio_resid := u.uio_resid - n }

/-- sfs_partialio: I/O to part of one block.  Reads the underlying block
    first (or zero-fills on a read of a hole), moves `len` bytes, and
    writes the block back when writing. -/
def sfs_partialio_m (st : IoSt) (skipstart len : Nat) :
    Except Fault (Nat × IoSt) :=
  let doalloc := st.uio.uio_rw = UioRW.write
  if SFS_BLOCKSIZE < skipstart + len then .error .partialLen
  else
    let fileblock := st.uio.uio_offset / SFS_BLOCKSIZE
    match sfs_bmap st.sv st.fs fileblock doalloc with
    | .error f => .error f
    | .ok (r, ob, sv1, fs1) =>
      if r ≠ 0 then .ok (r, { st with sv := sv1, fs := fs1 })
      else
        let diskblock := ob.getD 0
        if diskblock = 0 then
          -- assert(uio->uio_rw == UIO_READ); zero the buffer, no device read
          if st.uio.uio_rw ≠ UioRW.read then .error .holeOnWrite
          else .ok (0, { sv := sv1, fs := fs1, uio := uioAdvance st.uio len })
        else
          -- read the block, move the bytes, write back when writing
          let uio1 := uioAdvance st.uio len
          if st.uio.uio_rw = UioRW.write then
            .ok (0, { sv := sv1,
                      fs := { fs1 with log := diskblock :: fs1.log },
                      uio := uio1 })
          else .ok (0, { sv := sv1, fs := fs1, uio := uio1 })

/-- sfs_blockio: I/O of one whole aligned block straight to the caller's
    region.  A read of a hole moves a block of zeros; otherwise the
    save/substitute/restore dance around sfs_rwblock nets an advance of
    one block. -/
def sfs_blockio_m (st : IoSt) : Except Fault (Nat × IoSt) :=
  let doalloc := st.uio.uio_rw = UioRW.write
  let fileblock := st.uio.uio_offset / SFS_BLOCKSIZE
  match sfs_bmap st.sv st.fs fileblock doalloc with
  | .error f => .error f
  | .ok (r, ob, sv1, fs1) =>
    if r ≠ 0 then .ok (r, { st with sv := sv1, fs := fs1 })
    else
      let diskblock := ob.getD 0
      if diskblock = 0 then
        if st.uio.uio_rw ≠ UioRW.read then .error .holeOnWrite
        else .ok (0, { sv := sv1, fs := fs1,
                       uio := uioAdvance st.uio SFS_BLOCKSIZE })
      else
        if st.uio.uio_resid < SFS_BLOCKSIZE then .error .blockioResid
        else
          let uio1 := uioAdvance st.uio SFS_BLOCKSIZE
          if st.uio.uio_rw = UioRW.write then
            .ok (0, { sv := sv1,
                      fs := { fs1 with log := diskblock :: fs1.log },
                      uio := uio1 })
          else .ok (0, { sv := sv1, fs := fs1, uio := uio1 })

/-- The for-loop over the whole aligned blocks in sfs_io; `n` is the
    nblocks count, computed once before the loop. -/
def blockioLoop : Nat → IoSt → Except Fault (Nat × IoSt)
  | 0, st => .ok (0, st)
  | n + 1, st =>
    match sfs_blockio_m st with
    | .error f => .error f
    | .ok (r, st1) => if r ≠ 0 then .ok (r, st1) else blockioLoop n st1

/-- Aligned tail of sfs_io's body: done-check, alignment assert, the
    whole-block loop, and the trailing partial block. -/
def sfs_io_tail (st1 : IoSt) : Except Fault (Nat × IoSt) :=
  if st1.uio.uio_resid = 0 then .ok (0, st1)
  else if st1.uio.uio_offset % SFS_BLOCKSIZE ≠ 0 then .error .alignAssert
  else
    match blockioLoop (st1.uio.uio_resid / SFS_BLOCKSIZE) st1 with
    | .error f => .error f
    | .ok (r2, st2) =>
      if r2 ≠ 0 then .ok (r2, st2)
      else if ¬ (st2.uio.uio_resid < SFS_BLOCKSIZE) then .error .residAssert
      else if 0 < st2.uio.uio_resid then
        sfs_partialio_m st2 0 st2.uio.uio_resid
      else .ok (0, st2)

/-- Body of sfs_io between the EOF clamp and the `out` label: leading
    partial block, whole aligned blocks, trailing partial block.  Any
    nonzero result from a step is handed back (goto out) with the state the
    step left behind. -/
def sfs_io_body (st : IoSt) : Except Fault (Nat × IoSt) :=
  let blkoff := st.uio.uio_offset % SFS_BLOCKSIZE
  let step1 : Except Fault (Nat × IoSt) :=
    if blkoff ≠ 0 then
      let len0 := SFS_BLOCKSIZE - blkoff
      let len := if st.uio.uio_resid < len0 then st.uio.uio_resid else len0
      sfs_partialio_m st blkoff len
    else .ok (0, st)
  match step1 with
  | .error f => .error f
  | .ok (r, st1) =>
    if r ≠ 0 then .ok (r, st1)
    else sfs_io_tail st1

/-- The `out` label of sfs_io: grow the size field after a write past the
    old end, then restore the residue withheld by the EOF clamp. -/
def sfs_io_out (r : Nat) (extraresid : Nat) (st : IoSt) : Nat × IoSt :=
  let st1 :=
    if st.uio.uio_rw = UioRW.write ∧ st.sv.sfi_size < st.uio.uio_offset then
      { st with sv := { st.sv with sfi_size := st.uio.uio_offset,
                                   sv_dirty := true } }
    else st
  (r, { st1 with uio := { st1.uio with
          uio_resid := st1.uio.uio_resid + extraresid } })

/-- sfs_io: clamp reads at EOF (returning at once when the offset is at or
    past EOF), run the body, and finish through the `out` label. -/
def sfs_io_m (st : IoSt) : Except Fault (Nat × IoSt) :=
  match st.uio.uio_rw with
  | UioRW.read =>
    let size := st.sv.sfi_size
    if size ≤ st.uio.uio_offset then .ok (0, st)
    else
      let endpos := st.uio.uio_offset + st.uio.uio_resid
      if size < endpos then
        let extraresid := endpos - size
        if ¬ (extraresid < st.uio.uio_resid) then .error .clampAssert
        else
          let stc := { st with uio :=
            { st.uio with uio_resid := st.uio.uio_resid - extraresid } }
          (sfs_io_body stc).map (fun p => sfs_io_out p.1 extraresid p.2)
      else (sfs_io_body st).map (fun p => sfs_io_out p.1 0 p.2)
  | UioRW.write => (sfs_io_body st).map (fun p => sfs_io_out p.1 0 p.2)

/-! ## Truncate, inode sync and reclaim -/

/-- One iteration of the direct-pointer loop of sfs_dotruncate: free and
    clear a nonzero direct pointer at or past the new block length. -/
def truncDirectStep (blocklen : Nat) (acc : SVnode × Sfs) (i : Nat) :
    SVnode × Sfs :=
  let block := acc.1.sfi_direct.getD i 0
  if blocklen ≤ i ∧ block ≠ 0 then
    ({ acc.1 with sfi_direct := acc.1.sfi_direct.set i 0, sv_dirty := true },
     sfs_bfree acc.2 block)
  else acc

/-- One iteration of the indirect-entry loop of sfs_dotruncate over the
    buffer (idbuf, fs, iddirty). -/
def truncIndirectStep (blocklen : Nat) (acc : List Nat × Sfs × Bool)
    (j : Nat) : List Nat × Sfs × Bool :=
  let b := acc.1.getD j 0
  if blocklen < SFS_NDIRECT + j ∧ b ≠ 0 then
    (acc.1.set j 0, sfs_bfree acc.2.1 b, true)
  else acc

/-- sfs_dotruncate: free every direct and indirect-mapped block past the
    new length, free the indirect block itself when it holds no nonzero
    pointer any more, and set the new size. -/
def sfs_dotruncate (sv : SVnode) (fs : Sfs) (len : Nat) :
    Except Fault (Nat × SVnode × Sfs) :=
  -- blocklen = DIVROUNDUP(len, SFS_BLOCKSIZE)
  let blocklen := (len + SFS_BLOCKSIZE - 1) / SFS_BLOCKSIZE
  let d := (List.range SFS_NDIRECT).foldl (truncDirectStep blocklen) (sv, fs)
  let sv1 := d.1
  let fs1 := d.2
  let idblock := sv1.sfi_indirect
  let highblock := SFS_NDIRECT + SFS_DBPERIDB - 1
  let step : SVnode × Sfs :=
    if blocklen < highblock ∧ idblock ≠ 0 then
      let idbuf := readIdata fs1 idblock
      let t := (List.range SFS_DBPERIDB).foldl (truncIndirectStep blocklen)
        (idbuf, fs1, false)
      let hasnonzero := t.1.any (fun b => b ≠ 0)
      if ¬hasnonzero then
        ({ sv1 with sfi_indirect := 0, sv_dirty := true },
         sfs_bfree t.2.1 idblock)
      else if t.2.2 then (sv1, writeIdata t.2.1 idblock t.1)
      else (sv1, t.2.1)
    else (sv1, fs1)
  .ok (0, { step.1 with sfi_size := len, sv_dirty := true }, step.2)

/-- sfs_sync_inode: write the inode block back when the vnode is dirty. -/
def sfs_sync_inode (sv : SVnode) (fs : Sfs) (ino : Nat) : SVnode × Sfs :=
  if sv.sv_dirty then
    ({ sv with sv_dirty := false }, { fs with log := ino :: fs.log })
  else (sv, fs)

/-- State sfs_reclaim acts on: the vnode (inode copy and dirty flag), the
    filesystem, the vnode's inode/block number, the vnode refcount
    (vn_refcount, re-checked under the locks) and the vnode table as the
    list of resident inode numbers. -/
structure RcSt where
  sv : SVnode
  fs : Sfs
  sv_ino : Nat
  refcount : Nat
  table : List Nat
  deriving DecidableEq

/-- sfs_reclaim: with all three locks held, a refcount other than one means
    another thread got a reference first: consume the caller's reference
    and return EBUSY with nothing reclaimed.  Otherwise erase the file when
    its link count is zero, sync the inode, free its block when the link
    count is zero, and drop the vnode from the table. -/
def sfs_reclaim (st : RcSt) : Except Fault (Nat × RcSt) :=
  if st.refcount ≠ 1 then
    -- assert(v->vn_refcount > 1); consume the reference VOP_DECREF gave us
    if ¬ (1 < st.refcount) then .error .refAssert
    else .ok (EBUSY, { st with refcount := st.refcount - 1 })
  else
    let step1 : Except Fault (Nat × SVnode × Sfs) :=
      if st.sv.sfi_linkcount = 0 then sfs_dotruncate st.sv st.fs 0
      else .ok (0, st.sv, st.fs)
    match step1 with
    | .error f => .error f
    | .ok (r, sv1, fs1) =>
      if r ≠ 0 then .ok (r, { st with sv := sv1, fs := fs1 })
      else
        let s := sfs_sync_inode sv1 fs1 st.sv_ino
        let fs3 := if s.1.sfi_linkcount = 0 then sfs_bfree s.2 st.sv_ino
                   else s.2
        if st.sv_ino ∈ st.table then
          .ok (0, { st with sv := s.1, fs := fs3,
                            table := st.table.erase st.sv_ino,
                            refcount := 0 })
        else .error .tableMissing

/-! ## Sample concrete states (used by witnesses and counterexamples) -/

/-- Sample file vnode: one allocated direct block, no indirect block. -/
def svA : SVnode :=
  { sfi_type := SFS_TYPE_FILE, sfi_size := 600, sfi_linkcount := 1,
    sfi_direct := 5 :: List.replicate 14 0, sfi_indirect := 0,
    sv_dirty := false }

/-- Sample filesystem: block 5 carries data, blocks 7, 8, 9 are free. -/
def fsA : Sfs :=
  { used := [1, 5], freelist := [7, 8, 9], idata := [], nblocks := 100,
    log := [] }

/-- Sample directory: one active entry "d" for inode 2 (a subdirectory
    holding only its "." and ".." entries, which live in inode 2's own
    entry array, not in the parent). -/
def parentD : DirSt :=
  { entries := [{ sfd_ino := 2, sfd_name := "d" }], dtype := SFS_TYPE_DIR,
    failSlots := [],
    files := [(2, { linkcount := 2, ftype := SFS_TYPE_DIR, dirty := false })] }

/-! ## Claim C5 -/

/-- Claim C5: for every vnode and every logical file block index with
    fileblock >= SFS_NDIRECT and (fileblock - SFS_NDIRECT) / SFS_DBPERIDB
    > 0, sfs_bmap fails with EINVAL ("file too large"), with and without
    allocation requested, leaving the vnode and the filesystem unchanged. -/
theorem C5_bmap_file_too_large (sv : SVnode) (fs : Sfs) (fileblock : Nat)
    (doalloc : Bool) (h1 : SFS_NDIRECT ≤ fileblock)
    (h2 : 0 < (fileblock - SFS_NDIRECT) / SFS_DBPERIDB) :
    sfs_bmap sv fs fileblock doalloc = .ok (EINVAL, none, sv, fs) := by
  have hnot : ¬ fileblock < SFS_NDIRECT := by omega
  simp [sfs_bmap, hnot, h2]

/-- Witness for C5 at fileblock 143 = SFS_NDIRECT + SFS_DBPERIDB, the first
    index past the single indirect block, with allocation requested. -/
theorem C5_witness :
    SFS_NDIRECT ≤ 143 ∧ 0 < (143 - SFS_NDIRECT) / SFS_DBPERIDB ∧
    sfs_bmap svA fsA 143 true = .ok (EINVAL, none, svA, fsA) :=
  ⟨by decide, by decide,
   C5_bmap_file_too_large svA fsA 143 true (by decide) (by decide)⟩

/-! ## Claim C6 -/

/-- Claim C6: with allocation not requested, a zero pointer for the
    requested logical block — a zero direct pointer, an absent indirect
    block, or a zero entry in a present indirect block — makes sfs_bmap
    return success with disk block 0 and leaves the vnode (and the
    filesystem) unmodified. -/
theorem C6_bmap_hole_read (sv : SVnode) (fs : Sfs) (fileblock : Nat)
    (h : (fileblock < SFS_NDIRECT ∧ sv.sfi_direct.getD fileblock 0 = 0) ∨
         (SFS_NDIRECT ≤ fileblock ∧
          (fileblock - SFS_NDIRECT) / SFS_DBPERIDB = 0 ∧
          (sv.sfi_indirect = 0 ∨
           (readIdata fs sv.sfi_indirect).getD
             ((fileblock - SFS_NDIRECT) % SFS_DBPERIDB) 0 = 0))) :
    sfs_bmap sv fs fileblock false = .ok (0, some 0, sv, fs) := by
  rcases h with ⟨hlt, hz⟩ | ⟨hge, hid, hcase⟩
  · simp only [List.getD, List.get?_eq_getElem?] at hz
    simp [sfs_bmap, hlt, hz, bmapHandback]
  · have hnot : ¬ fileblock < SFS_NDIRECT := by omega
    by_cases h0 : sv.sfi_indirect = 0
    · simp [sfs_bmap, hnot, hid, h0]
    · rcases hcase with h0' | hz
      · exact absurd h0' h0
      · simp only [List.getD, List.get?_eq_getElem?] at hz
        simp [sfs_bmap, sfs_bmap_idstep, hnot, hid, h0, hz, bmapHandback]

/-- Witness for C6 on the three hole shapes: a zero direct pointer
    (fileblock 1 of svA), an absent indirect block (fileblock 20 of svA),
    and a zero entry of a present indirect block (fileblock 21 of a vnode
    whose indirect block 9 maps only entry 0). -/
theorem C6_witness :
    sfs_bmap svA fsA 1 false = .ok (0, some 0, svA, fsA) ∧
    sfs_bmap svA fsA 20 false = .ok (0, some 0, svA, fsA) ∧
    sfs_bmap { svA with sfi_indirect := 9 }
      { fsA with used := [1, 5, 9, 10], idata := [(9, 10 :: List.replicate 127 0)] }
      21 false =
      .ok (0, some 0, { svA with sfi_indirect := 9 },
        { fsA with used := [1, 5, 9, 10], idata := [(9, 10 :: List.replicate 127 0)] }) :=
  ⟨C6_bmap_hole_read svA fsA 1 (Or.inl (by decide)),
   C6_bmap_hole_read svA fsA 20 (Or.inr (by decide)),
   C6_bmap_hole_read _ _ 21 (Or.inr (by decide))⟩

/-! ## Claim C9 -/

/-- Claim C9: on a directory vnode, a getdirentry request whose entry index
    (the uio offset) is at or past the directory's slot count returns
    success with the uio untouched — zero bytes transferred, offset
    unchanged. -/
theorem C9_getdirentry_past_end (st : DirSt) (uio : DirUio)
    (hdir : st.dtype = SFS_TYPE_DIR)
    (hslot : sfs_dir_nentries st ≤ uio.uio_offset) :
    sfs_getdirentry st uio = .ok (0, uio) := by
  simp [sfs_getdirentry, hdir, hslot]

/-- Witness for C9: reading entry 1 of a one-entry directory. -/
theorem C9_witness :
    parentD.dtype = SFS_TYPE_DIR ∧ sfs_dir_nentries parentD ≤ 1 ∧
    sfs_getdirentry parentD { uio_offset := 1, uio_resid := 60 } =
      .ok (0, { uio_offset := 1, uio_resid := 60 }) :=
  ⟨by decide, by decide,
   C9_getdirentry_past_end parentD { uio_offset := 1, uio_resid := 60 }
     (by decide) (by decide)⟩

/-! ## Claim C7 -/

/-- Claim C7: when the re-check under the vnode, table and count locks sees
    a reference count other than one, sfs_reclaim consumes the caller's
    reference and returns EBUSY with nothing reclaimed: the vnode is still
    in the table, the file is not truncated, its inode block stays
    allocated, and nothing is written to disk.  (The count is at least one
    because it includes the caller's own reference.) -/
theorem C7_reclaim_busy (st : RcSt) (h1 : st.refcount ≠ 1)
    (h2 : 0 < st.refcount) :
    ∃ st', sfs_reclaim st = .ok (EBUSY, st') ∧
      st'.sv = st.sv ∧ st'.fs = st.fs ∧ st'.table = st.table ∧
      st'.sv_ino = st.sv_ino ∧ st'.refcount = st.refcount - 1 := by
  have hgt : 1 < st.refcount := by omega
  refine ⟨{ st with refcount := st.refcount - 1 }, ?_, rfl, rfl, rfl, rfl, rfl⟩
  simp [sfs_reclaim, h1, hgt]

/-- Witness for C7: a raced reclaim with refcount 2. -/
theorem C7_witness :
    (2 : Nat) ≠ 1 ∧ 0 < (2 : Nat) ∧
    ∃ st', sfs_reclaim { sv := svA, fs := fsA, sv_ino := 5, refcount := 2,
                         table := [1, 5] } = .ok (EBUSY, st') ∧
      st'.sv = svA ∧ st'.fs = fsA ∧ st'.table = [1, 5] ∧
      st'.sv_ino = 5 ∧ st'.refcount = 1 :=
  ⟨by decide, by decide,
   C7_reclaim_busy { sv := svA, fs := fsA, sv_ino := 5, refcount := 2,
                     table := [1, 5] } (by decide) (by decide)⟩

/-! ## Claim C3 -/

/-- Claim C3 (code bug): the claim — backed by the spec and by the repo's
    own design notes — says rmdir on a directory holding only "." and ".."
    succeeds and makes the name unfindable; but sfs_rmdir in the source is
    an unimplemented stub that returns EUNIMP for every input and mutates
    nothing, so the name is still found afterwards. -/
theorem C3_rmdir_unimplemented :
    sfs_rmdir parentD "d" = (EUNIMP, parentD) ∧ EUNIMP ≠ 0 ∧
    sfs_dir_findname parentD "d" = .ok (0, some 2, some 0, none) := by
  refine ⟨rfl, by decide, ?_⟩
  rfl

/-! ## Characterization of the findname scan -/

/-- The empty-slot accumulator of the scan, in isolation: each empty slot
    overwrites the accumulator. -/
def lastEmptyFrom : List SfsDirEnt → Nat → Option Nat → Option Nat
  | [], _, acc => acc
  | e :: rest, i, acc =>
    lastEmptyFrom rest (i + 1) (if e.sfd_ino = SFS_NOINO then some i else acc)

/-- Index of the last empty slot of an entry list, if any. -/
def lastEmptyIdx : List SfsDirEnt → Option Nat
  | [] => none
  | e :: rest =>
    match lastEmptyIdx rest with
    | some j => some (j + 1)
    | none => if e.sfd_ino = SFS_NOINO then some 0 else none

theorem lastEmptyFrom_eq (l : List SfsDirEnt) :
    ∀ i acc, lastEmptyFrom l i acc =
      (match lastEmptyIdx l with
       | some j => some (i + j)
       | none => acc) := by
  induction l with
  | nil => intro i acc; rfl
  | cons e rest ih =>
    intro i acc
    by_cases he : e.sfd_ino = SFS_NOINO
    · simp only [lastEmptyFrom, he, if_pos, lastEmptyIdx]
      rw [ih]
      cases hr : lastEmptyIdx rest with
      | none => simp [he]
      | some j => simp [Nat.add_assoc, Nat.add_comm 1 j]
    · simp only [lastEmptyFrom, he, if_neg, lastEmptyIdx]
      rw [ih]
      cases hr : lastEmptyIdx rest with
      | none => simp [he]
      | some j => simp [Nat.add_assoc, Nat.add_comm 1 j]

theorem lastEmptyIdx_none (l : List SfsDirEnt) :
    lastEmptyIdx l = none →
      ∀ k e', l.get? k = some e' → e'.sfd_ino ≠ SFS_NOINO := by
  induction l with
  | nil => intro _ k e' hg; simp at hg
  | cons e rest ih =>
    intro h k e' hg
    simp only [lastEmptyIdx] at h
    cases hr : lastEmptyIdx rest with
    | some j' => rw [hr] at h; cases h
    | none =>
      rw [hr] at h
      by_cases he : e.sfd_ino = SFS_NOINO
      · rw [if_pos he] at h; cases h
      · cases k with
        | zero => simp only [List.get?_cons_zero] at hg; cases hg; exact he
        | succ k' =>
          simp only [List.get?_cons_succ] at hg
          exact ih hr k' e' hg

theorem lastEmptyIdx_spec_some (l : List SfsDirEnt) :
    ∀ j, lastEmptyIdx l = some j →
      (∃ e, l.get? j = some e ∧ e.sfd_ino = SFS_NOINO) ∧
      ∀ k e', j < k → l.get? k = some e' → e'.sfd_ino ≠ SFS_NOINO := by
  induction l with
  | nil => intro j h; simp [lastEmptyIdx] at h
  | cons e rest ih =>
    intro j h
    simp only [lastEmptyIdx] at h
    cases hr : lastEmptyIdx rest with
    | some j' =>
      rw [hr] at h
      cases h
      obtain ⟨⟨e', hg, he'⟩, hafter⟩ := ih j' hr
      refine ⟨⟨e', ?_, he'⟩, ?_⟩
      · simpa using hg
      · intro k ek hk hgk
        cases k with
        | zero => omega
        | succ k' =>
          simp only [List.get?_cons_succ] at hgk
          exact hafter k' ek (by omega) hgk
    | none =>
      rw [hr] at h
      by_cases he : e.sfd_ino = SFS_NOINO
      · rw [if_pos he] at h
        cases h
        refine ⟨⟨e, rfl, he⟩, ?_⟩
        intro k ek hk hgk
        cases k with
        | zero => omega
        | succ k' =>
          simp only [List.get?_cons_succ] at hgk
          exact lastEmptyIdx_none rest hr k' ek hgk
      · rw [if_neg he] at h
        cases h

/-- On every non-faulting scan, the reported empty slot is the last-empty
    accumulator. -/
theorem findnameScan_empty (name : String) (l : List SfsDirEnt) :
    ∀ i found acc res es,
      findnameScan name l i found acc = .ok (res, es) →
      es = lastEmptyFrom l i acc := by
  induction l with
  | nil =>
    intro i found acc res es h
    simp only [findnameScan] at h
    cases h
    rfl
  | cons e rest ih =>
    intro i found acc res es h
    simp only [findnameScan] at h
    by_cases he : e.sfd_ino = SFS_NOINO
    · rw [if_pos he] at h
      simp only [lastEmptyFrom, he, if_pos]
      exact ih (i + 1) found (some i) res es h
    · rw [if_neg he] at h
      simp only [lastEmptyFrom, he, if_neg, ite_false]
      by_cases hn : e.sfd_name = name
      · rw [if_pos hn] at h
        cases found with
        | some p => cases h
        | none => exact ih (i + 1) (some (e.sfd_ino, i)) acc res es h
      · rw [if_neg hn] at h
        exact ih (i + 1) found acc res es h

/-- A scan that reports a match either echoes the accumulator or found an
    active entry with the name at the reported slot. -/
theorem findnameScan_found (name : String) (l : List SfsDirEnt) :
    ∀ i found acc ino slot es,
      findnameScan name l i found acc = .ok (some (ino, slot), es) →
      found = some (ino, slot) ∨
      ∃ j e, l.get? j = some e ∧ e.sfd_ino ≠ SFS_NOINO ∧
        e.sfd_name = name ∧ ino = e.sfd_ino ∧ slot = i + j := by
  induction l with
  | nil =>
    intro i found acc ino slot es h
    simp only [findnameScan] at h
    cases h
    exact Or.inl rfl
  | cons e rest ih =>
    intro i found acc ino slot es h
    simp only [findnameScan] at h
    by_cases he : e.sfd_ino = SFS_NOINO
    · rw [if_pos he] at h
      rcases ih (i + 1) found (some i) ino slot es h with h1 | ⟨j, e', hg, hne, hn, hi, hs⟩
      · exact Or.inl h1
      · exact Or.inr ⟨j + 1, e', by simpa using hg, hne, hn, hi, by omega⟩
    · rw [if_neg he] at h
      by_cases hn : e.sfd_name = name
      · rw [if_pos hn] at h
        cases found with
        | some p => cases h
        | none =>
          rcases ih (i + 1) (some (e.sfd_ino, i)) acc ino slot es h with h1 | h2
          · cases h1
            exact Or.inr ⟨0, e, rfl, he, hn, rfl, by omega⟩
          · obtain ⟨j, e', hg, hne, hn', hi, hs⟩ := h2
            exact Or.inr ⟨j + 1, e', by simpa using hg, hne, hn', hi, by omega⟩
      · rw [if_neg hn] at h
        rcases ih (i + 1) found acc ino slot es h with h1 | ⟨j, e', hg, hne, hn', hi, hs⟩
        · exact Or.inl h1
        · exact Or.inr ⟨j + 1, e', by simpa using hg, hne, hn', hi, by omega⟩

/-- A scan whose found-accumulator is set never reports none. -/
theorem findnameScan_ok_found (name : String) (l : List SfsDirEnt) :
    ∀ i p acc es,
      findnameScan name l i (some p) acc = .ok (none, es) → False := by
  induction l with
  | nil =>
    intro i p acc es h
    simp only [findnameScan] at h
    cases h
  | cons e rest ih =>
    intro i p acc es h
    simp only [findnameScan] at h
    by_cases he : e.sfd_ino = SFS_NOINO
    · rw [if_pos he] at h; exact ih (i + 1) p (some i) es h
    · rw [if_neg he] at h
      by_cases hn : e.sfd_name = name
      · rw [if_pos hn] at h; cases h
      · rw [if_neg hn] at h; exact ih (i + 1) p acc es h

/-- A scan that reports no match saw no active entry carrying the name. -/
theorem findnameScan_notfound (name : String) (l : List SfsDirEnt) :
    ∀ i found acc es,
      findnameScan name l i found acc = .ok (none, es) →
      ∀ e ∈ l, e.sfd_ino ≠ SFS_NOINO → e.sfd_name ≠ name := by
  induction l with
  | nil => intro i found acc es h e he; simp at he
  | cons e rest ih =>
    intro i found acc es h f hf
    simp only [findnameScan] at h
    by_cases he : e.sfd_ino = SFS_NOINO
    · rw [if_pos he] at h
      rcases List.mem_cons.mp hf with rfl | hf'
      · intro hne; exact absurd he hne
      · exact ih (i + 1) found (some i) es h f hf'
    · rw [if_neg he] at h
      by_cases hn : e.sfd_name = name
      · rw [if_pos hn] at h
        cases found with
        | some p => cases h
        | none =>
          -- with found set, the scan can no longer report none
          exact absurd h (fun hc =>
            findnameScan_ok_found name rest (i + 1) (e.sfd_ino, i) acc es hc)
      · rw [if_neg hn] at h
        rcases List.mem_cons.mp hf with rfl | hf'
        · intro _; exact hn
        · exact ih (i + 1) found acc es h f hf'

/-- The only fault the scan can raise is the duplicate-name assert. -/
theorem findnameScan_error (name : String) (l : List SfsDirEnt) :
    ∀ i found acc f,
      findnameScan name l i found acc = .error f → f = .dupName := by
  induction l with
  | nil => intro i found acc f h; simp only [findnameScan] at h; cases h
  | cons e rest ih =>
    intro i found acc f h
    simp only [findnameScan] at h
    by_cases he : e.sfd_ino = SFS_NOINO
    · rw [if_pos he] at h; exact ih (i + 1) found (some i) f h
    · rw [if_neg he] at h
      by_cases hn : e.sfd_name = name
      · rw [if_pos hn] at h
        cases found with
        | some p => cases h; rfl
        | none => exact ih (i + 1) (some (e.sfd_ino, i)) acc f h
      · rw [if_neg hn] at h; exact ih (i + 1) found acc f h

/-! ## Positional facts about writeSlot -/

theorem writeSlot_length_le (l : List SfsDirEnt) (sd : SfsDirEnt)
    (slot : Nat) : l.length ≤ (writeSlot l sd slot).length := by
  unfold writeSlot
  by_cases h : slot < l.length
  · simp [h]
  · simp [h]

theorem writeSlot_lt_length (l : List SfsDirEnt) (sd : SfsDirEnt)
    (slot : Nat) : slot < (writeSlot l sd slot).length := by
  unfold writeSlot
  by_cases h : slot < l.length
  · simpa [h] using h
  · rw [if_neg h]
    simp only [List.length_append, List.length_replicate, List.length_cons,
      List.length_nil]
    omega

theorem writeSlot_get_self (l : List SfsDirEnt) (sd : SfsDirEnt)
    (slot : Nat) : (writeSlot l sd slot).get? slot = some sd := by
  unfold writeSlot
  by_cases h : slot < l.length
  · rw [if_pos h]
    rw [List.get?_eq_getElem?]
    exact List.getElem?_set_eq_of_lt sd h
  · rw [if_neg h]
    have hlen : (l ++ List.replicate (slot - l.length) emptyDirEnt).length
        = slot := by
      simp only [List.length_append, List.length_replicate]
      omega
    rw [List.get?_eq_getElem?]
    rw [List.getElem?_append_right (Nat.le_of_eq hlen)]
    rw [hlen]
    simp

theorem writeSlot_get_lt (l : List SfsDirEnt) (sd : SfsDirEnt)
    (slot k : Nat) (hk : k < l.length) (hne : k ≠ slot) :
    (writeSlot l sd slot).get? k = l.get? k := by
  unfold writeSlot
  by_cases h : slot < l.length
  · rw [if_pos h]
    exact List.get?_set_ne sd l (fun hc => hne hc.symm)
  · rw [if_neg h]
    rw [List.get?_eq_getElem?, List.get?_eq_getElem?, List.append_assoc]
    exact List.getElem?_append_left hk

theorem writeSlot_get_cases (l : List SfsDirEnt) (sd : SfsDirEnt)
    (slot k : Nat) (hne : k ≠ slot) :
    (writeSlot l sd slot).get? k = l.get? k ∨
    (writeSlot l sd slot).get? k = some emptyDirEnt ∨
    (writeSlot l sd slot).get? k = none := by
  by_cases hk : k < l.length
  · exact Or.inl (writeSlot_get_lt l sd slot k hk hne)
  · unfold writeSlot
    by_cases h : slot < l.length
    · rw [if_pos h]
      right; right
      rw [List.get?_eq_getElem?]
      exact List.getElem?_eq_none (by simpa using Nat.le_of_not_lt hk)
    · rw [if_neg h]
      by_cases hks : k < slot
      · right; left
        have hlen : (l ++ List.replicate (slot - l.length) emptyDirEnt).length
            = slot := by
          simp only [List.length_append, List.length_replicate]
          omega
        rw [List.get?_eq_getElem?]
        rw [List.getElem?_append_left (by rw [hlen]; exact hks)]
        rw [List.getElem?_append_right (Nat.le_of_not_lt hk)]
        have hlt : k - l.length < slot - l.length := by omega
        simp [List.getElem?_replicate, hlt]
      · right; right
        rw [List.get?_eq_getElem?]
        rw [List.getElem?_eq_none (by
          simp only [List.length_append, List.length_replicate,
            List.length_cons, List.length_nil]
          omega)]

/-! ## Claim C2 -/

/-- Sample directory for the C2 counterexample: empty slots at indices 0
    and 2, an active entry at index 1. -/
def dirC2 : DirSt :=
  { entries := [emptyDirEnt, { sfd_ino := 7, sfd_name := "x" }, emptyDirEnt],
    dtype := SFS_TYPE_DIR, failSlots := [],
    files := [(7, { linkcount := 1, ftype := SFS_TYPE_FILE, dirty := false })] }

/-- Counterexample to claim C2: in a directory whose slots 0 and 2 are
    both empty, sfs_dir_findname reports empty slot 2 — not the first
    (lowest-index) empty slot 0 — and sfs_dir_link on a fresh name writes
    the new entry into slot 2, leaving slot 0 empty. -/
theorem C2_counterexample :
    sfs_dir_findname dirC2 "y" = .ok (ENOENT, none, none, some 2) ∧
    (dirC2.entries.get? 0 = some emptyDirEnt) ∧
    some (2 : Nat) ≠ some 0 ∧
    sfs_dir_link dirC2 "y" 9 =
      .ok (0, some 2,
        { dirC2 with entries :=
            [emptyDirEnt, { sfd_ino := 7, sfd_name := "x" },
             { sfd_ino := 9, sfd_name := "y" }] }) := by
  refine ⟨?_, rfl, by decide, ?_⟩ <;> rfl

/-- Claim C2 as amended: the scan reports the last (highest-index) empty
    slot, not the first; on a name that is not present and fits, link
    writes its new entry into that reported slot, or appends at slot
    sfs_dir_nentries when no slot is empty. -/
theorem C2_amended_last_empty_slot (st : DirSt) (name : String) (r : Nat)
    (oi os : Option Nat) (es : Option Nat)
    (hscan : sfs_dir_findname st name = .ok (r, oi, os, es)) :
    (∀ j, es = some j →
       (∃ e, st.entries.get? j = some e ∧ e.sfd_ino = SFS_NOINO) ∧
       ∀ k e', j < k → st.entries.get? k = some e' →
         e'.sfd_ino ≠ SFS_NOINO) ∧
    (es = none → ∀ k e', st.entries.get? k = some e' →
       e'.sfd_ino ≠ SFS_NOINO) ∧
    (r = ENOENT → name.length + 1 ≤ SFS_NAMELEN → ∀ ino,
       sfs_dir_link st name ino =
         .ok ((sfs_writedir st { sfd_ino := ino, sfd_name := name }
                 (es.getD st.entries.length)).1,
              some (es.getD st.entries.length),
              (sfs_writedir st { sfd_ino := ino, sfd_name := name }
                 (es.getD st.entries.length)).2)) := by
  -- expose the underlying scan
  unfold sfs_dir_findname at hscan
  cases h0 : findnameScan name st.entries 0 none none with
  | error f => rw [h0] at hscan; cases hscan
  | ok p =>
    rw [h0] at hscan
    obtain ⟨fnd, es0⟩ := p
    have hes : es = lastEmptyFrom st.entries 0 none := by
      have := findnameScan_empty name st.entries 0 none none fnd es0 h0
      cases fnd with
      | some q => obtain ⟨ino, slot⟩ := q; cases hscan; exact this
      | none => cases hscan; exact this
    have hle : es = (match lastEmptyIdx st.entries with
        | some j => some (0 + j)
        | none => none) := by
      rw [hes, lastEmptyFrom_eq]
    refine ⟨?_, ?_, ?_⟩
    · intro j hj
      rw [hj] at hle
      cases hli : lastEmptyIdx st.entries with
      | none => rw [hli] at hle; cases hle
      | some j' =>
        rw [hli] at hle
        have : j = j' := by
          have := hle.symm
          simp at this
          omega
        subst this
        exact lastEmptyIdx_spec_some st.entries j hli
    · intro hn k e' hg
      rw [hn] at hle
      cases hli : lastEmptyIdx st.entries with
      | some j' => rw [hli] at hle; cases hle
      | none => exact lastEmptyIdx_none st.entries hli k e' hg
    · intro hr hfit ino
      -- r = ENOENT forces the not-found branch of the scan
      have hfnd : fnd = none := by
        cases fnd with
        | none => rfl
        | some q =>
          obtain ⟨ino', slot'⟩ := q
          cases hscan
          exact absurd hr (by decide)
      subst hfnd
      cases hscan
      have hfd : sfs_dir_findname st name = .ok (ENOENT, none, none, es) := by
        unfold sfs_dir_findname
        rw [h0]
      have h3 : ¬ (SFS_NAMELEN < name.length + 1) := by omega
      cases es with
      | none => simp [sfs_dir_link, hfd, ENOENT, h3, sfs_dir_nentries]
      | some s => simp [sfs_dir_link, hfd, ENOENT, h3]

/-- Witness for C2 as amended, on dirC2 (last empty slot 2, name fits). -/
theorem C2_amended_witness :
    sfs_dir_findname dirC2 "y" = .ok (ENOENT, none, none, some 2) ∧
    ((∃ e, dirC2.entries.get? 2 = some e ∧ e.sfd_ino = SFS_NOINO) ∧
     ∀ k e', 2 < k → dirC2.entries.get? k = some e' →
       e'.sfd_ino ≠ SFS_NOINO) ∧
    sfs_dir_link dirC2 "y" 9 =
      .ok ((sfs_writedir dirC2 { sfd_ino := 9, sfd_name := "y" } 2).1,
           some 2,
           (sfs_writedir dirC2 { sfd_ino := 9, sfd_name := "y" } 2).2) := by
  have hscan : sfs_dir_findname dirC2 "y" = .ok (ENOENT, none, none, some 2) :=
    rfl
  have h := C2_amended_last_empty_slot dirC2 "y" ENOENT none none (some 2) hscan
  exact ⟨hscan, h.1 2 rfl, h.2.2 rfl (by decide) 9⟩

/-! ## Link-count bookkeeping lemmas -/

theorem findMap_setLink (ino n : Nat) (m : FileMeta) :
    ∀ l : List (Nat × FileMeta),
      (l.find? (fun p => p.1 = ino)).map (fun p => p.2) = some m →
      ((l.map (fun p =>
          if p.1 = ino then (p.1, { p.2 with linkcount := n, dirty := true })
          else p)).find? (fun p => p.1 = ino)).map (fun p => p.2) =
        some { m with linkcount := n, dirty := true } := by
  intro l
  induction l with
  | nil => intro h; simp at h
  | cons p rest ih =>
    intro h
    by_cases hp : p.1 = ino
    · rw [List.find?_cons_of_pos _ (by simpa using hp)] at h
      have hm : p.2 = m := by
        simpa using h
      simp only [List.map_cons, hp, if_pos]
      rw [List.find?_cons_of_pos _ (by simpa using hp)]
      simp [hm]
    · rw [List.find?_cons_of_neg _ (by simpa using hp)] at h
      simp only [List.map_cons, hp, if_neg, ite_false]
      rw [List.find?_cons_of_neg _ (by simpa using hp)]
      exact ih h

theorem lookupFile_setLinkcount (st : DirSt) (ino n : Nat) (m : FileMeta)
    (h : lookupFile st ino = some m) :
    lookupFile (setLinkcount st ino n) ino =
      some { m with linkcount := n, dirty := true } := by
  unfold lookupFile setLinkcount
  unfold lookupFile at h
  exact findMap_setLink ino n m st.files h

theorem getLinkcount_eq (st : DirSt) (ino : Nat) (m : FileMeta)
    (h : lookupFile st ino = some m) : getLinkcount st ino = m.linkcount := by
  unfold getLinkcount
  rw [h]

/-- Behaviour of the puke_harder path of sfs_rename, in terms of the state
    st2 reached after the new link and the link-count increment: the unlink
    of slot1 fails at the device, the recovery unlink of slot2 succeeds,
    the link count is decremented, and the unlink error is returned. -/
theorem sfs_rename_finish_fail (st2 : DirSt) (ino slot1 slot2 : Nat)
    (h7 : slot1 ∈ st2.failSlots) (h8 : slot2 ∉ st2.failSlots) :
    sfs_rename_finish st2 ino slot1 slot2 =
      .ok (EIOdev,
        setLinkcount
          { st2 with entries := writeSlot st2.entries emptyDirEnt slot2 }
          ino
          (getLinkcount
            { st2 with entries := writeSlot st2.entries emptyDirEnt slot2 }
            ino - 1)) := by
  unfold sfs_rename_finish sfs_dir_unlink sfs_writedir
  rw [if_pos h7]
  dsimp only []
  rw [if_neg h8]
  simp [EIOdev]

/-- After bumping the link count by one and then decrementing it, the count
    is back at its old value, however the directory entry array was changed
    in between. -/
theorem getLinkcount_restore (st : DirSt) (ino : Nat) (m : FileMeta)
    (h : lookupFile st ino = some m) (E1 E2 : List SfsDirEnt) :
    getLinkcount
      (setLinkcount
        { setLinkcount { st with entries := E1 } ino
            (getLinkcount { st with entries := E1 } ino + 1) with
          entries := E2 }
        ino
        (getLinkcount
          { setLinkcount { st with entries := E1 } ino
              (getLinkcount { st with entries := E1 } ino + 1) with
            entries := E2 }
          ino - 1)) ino = m.linkcount := by
  have hA : lookupFile { st with entries := E1 } ino = some m := h
  simp only [getLinkcount_eq _ ino m hA]
  have hB := lookupFile_setLinkcount { st with entries := E1 } ino
    (m.linkcount + 1) m hA
  have hC : lookupFile
      { setLinkcount { st with entries := E1 } ino (m.linkcount + 1) with
        entries := E2 } ino =
      some { m with linkcount := m.linkcount + 1, dirty := true } := hB
  simp only [getLinkcount_eq _ ino _ hC]
  have hD := lookupFile_setLinkcount _ ino (m.linkcount + 1 - 1) _ hC
  simp only [getLinkcount_eq _ ino _ hD]
  simp

/-! ## Claim C1 -/

/-- Sample state for the C1 counterexample: the directory holds one entry
    "a" for inode 5; writing slot 0 fails at the device. -/
def dirC1 : DirSt :=
  { entries := [{ sfd_ino := 5, sfd_name := "a" }], dtype := SFS_TYPE_DIR,
    failSlots := [0],
    files := [(5, { linkcount := 1, ftype := SFS_TYPE_FILE, dirty := false })] }

/-- Counterexample to claim C1: renaming "a" to "b" when removing the old
    entry (slot 0) fails does return the error with the link count back at
    its old value, but the recovery path REMOVES the just-added "b" entry
    rather than leaving it in place: afterwards the directory carries
    exactly one entry for inode 5 ("a", whose removal failed), not two,
    and "b" is not found. -/
theorem C1_counterexample :
    sfs_rename dirC1 "a" "b" =
      .ok (EIOdev,
        { entries := [{ sfd_ino := 5, sfd_name := "a" }, emptyDirEnt],
          dtype := SFS_TYPE_DIR, failSlots := [0],
          files := [(5, { linkcount := 1, ftype := SFS_TYPE_FILE,
                          dirty := true })] }) ∧
    (List.countP (fun e => e.sfd_ino == 5)
      [{ sfd_ino := 5, sfd_name := "a" }, emptyDirEnt] = 1) ∧
    sfs_dir_findname
      { entries := [{ sfd_ino := 5, sfd_name := "a" }, emptyDirEnt],
        dtype := SFS_TYPE_DIR, failSlots := [0],
        files := [(5, { linkcount := 1, ftype := SFS_TYPE_FILE,
                        dirty := true })] } "b" =
      .ok (ENOENT, none, none, some 1) := by
  refine ⟨?_, by decide, ?_⟩ <;> rfl

/-- The state sfs_rename leaves behind when the new entry went in at
    `slot2`, the unlink of the old entry failed, and the recovery unlink
    of `slot2` succeeded. -/
def renameFailState (st : DirSt) (n2 : String) (ino slot2 : Nat) : DirSt :=
  let sd : SfsDirEnt := { sfd_ino := ino, sfd_name := n2 }
  let st1 := { st with entries := writeSlot st.entries sd slot2 }
  let st2 := setLinkcount st1 ino (getLinkcount st1 ino + 1)
  let st4 := { st2 with entries := writeSlot st2.entries emptyDirEnt slot2 }
  setLinkcount st4 ino (getLinkcount st4 ino - 1)

/-- Claim C1 as amended: when removal of the old entry fails after the new
    entry was added, the recovery path removes the just-added new entry,
    decrements the link count back to its old value, and returns the
    error; the directory then holds no entry under the new name, and the
    old entry (whose removal failed) is untouched — so there are not two
    entries for the inode.  (When the recovery removal itself also fails,
    the code panics instead.) -/
theorem C1_amended_rename_recovery (st : DirSt) (n1 n2 : String)
    (ino slot1 slot2 : Nat) (m : FileMeta) (es1 es2 : Option Nat)
    (h1 : sfs_dir_findname st n1 = .ok (0, some ino, some slot1, es1))
    (h2 : lookupFile st ino = some m)
    (h3 : m.linkcount ≠ 0)
    (h4 : m.ftype = SFS_TYPE_FILE)
    (h5 : sfs_dir_findname st n2 = .ok (ENOENT, none, none, es2))
    (h6 : n2.length + 1 ≤ SFS_NAMELEN)
    (hs2 : slot2 = es2.getD st.entries.length)
    (h7 : slot1 ∈ st.failSlots)
    (h8 : slot2 ∉ st.failSlots)
    (h9 : ∃ e1, st.entries.get? slot1 = some e1 ∧ e1.sfd_ino ≠ SFS_NOINO) :
    sfs_rename st n1 n2 = .ok (EIOdev, renameFailState st n2 ino slot2) ∧
    getLinkcount (renameFailState st n2 ino slot2) ino = m.linkcount ∧
    (∀ k e, (renameFailState st n2 ino slot2).entries.get? k = some e →
       e.sfd_ino ≠ SFS_NOINO → e.sfd_name ≠ n2) ∧
    (renameFailState st n2 ino slot2).entries.get? slot1 =
      st.entries.get? slot1 := by
  obtain ⟨e1, hg1, hne1⟩ := h9
  -- slot1 is a real slot of the old array
  have hlt1 : slot1 < st.entries.length := by
    by_contra hnc
    rw [List.get?_eq_getElem?,
      List.getElem?_eq_none (Nat.le_of_not_lt hnc)] at hg1
    cases hg1
  -- what the scan for n2 reports: there is no active entry named n2,
  -- and the reported empty slot really is empty
  have hscan2 : findnameScan n2 st.entries 0 none none = .ok (none, es2) := by
    unfold sfs_dir_findname at h5
    cases h0 : findnameScan n2 st.entries 0 none none with
    | error f => rw [h0] at h5; cases h5
    | ok p =>
      obtain ⟨fnd, es0⟩ := p
      rw [h0] at h5
      cases fnd with
      | some q =>
        obtain ⟨a, b⟩ := q
        simp [ENOENT] at h5
      | none => cases h5; rfl
  have hnone : ∀ e ∈ st.entries, e.sfd_ino ≠ SFS_NOINO → e.sfd_name ≠ n2 :=
    findnameScan_notfound n2 st.entries 0 none none es2 hscan2
  -- slot1 and slot2 differ
  have hne12 : slot1 ≠ slot2 := by
    cases hes2 : es2 with
    | none =>
      rw [hes2] at hs2
      simp only [Option.getD] at hs2
      omega
    | some s =>
      rw [hes2] at hs2
      simp only [Option.getD] at hs2
      have hemp : es2 = lastEmptyFrom st.entries 0 none :=
        findnameScan_empty n2 st.entries 0 none none none es2 hscan2
      rw [lastEmptyFrom_eq] at hemp
      cases hli : lastEmptyIdx st.entries with
      | none => rw [hli] at hemp; rw [hes2] at hemp; cases hemp
      | some j =>
        rw [hli] at hemp
        rw [hes2] at hemp
        have hsj : s = j := by
          have := Option.some.inj hemp
          omega
        obtain ⟨⟨e2, hg2, he2⟩, _⟩ := lastEmptyIdx_spec_some st.entries j hli
        intro hc
        rw [hc, hs2, hsj] at hg1
        rw [hg1] at hg2
        cases hg2
        exact hne1 he2
  -- the lookonce of n1
  have hlo : sfs_lookonce st n1 = .ok (0, some (ino, slot1, m)) := by
    unfold sfs_lookonce
    rw [h1]
    simp [h2, h3]
  -- the link of n2
  have hlink : sfs_dir_link st n2 ino =
      .ok (0, some slot2,
        { st with entries :=
          writeSlot st.entries { sfd_ino := ino, sfd_name := n2 } slot2 }) := by
    have h3' : ¬ (SFS_NAMELEN < n2.length + 1) := by omega
    cases hes2 : es2 with
    | none =>
      rw [hes2] at hs2
      simp only [Option.getD] at hs2
      rw [hes2] at h5
      subst hs2
      simp [sfs_dir_link, h5, ENOENT, h3', sfs_dir_nentries, sfs_writedir, h8]
    | some s =>
      rw [hes2] at hs2
      simp only [Option.getD] at hs2
      rw [hes2] at h5
      subst hs2
      simp [sfs_dir_link, h5, ENOENT, h3', sfs_writedir, h8]
  -- run the rename
  have hmain : sfs_rename st n1 n2 =
      .ok (EIOdev, renameFailState st n2 ino slot2) := by
    have hfin := sfs_rename_finish_fail
      (setLinkcount
        { st with entries :=
          writeSlot st.entries { sfd_ino := ino, sfd_name := n2 } slot2 }
        ino
        (getLinkcount
          { st with entries :=
            writeSlot st.entries { sfd_ino := ino, sfd_name := n2 } slot2 }
          ino + 1))
      ino slot1 slot2 h7 h8
    simp only [sfs_rename]
    rw [hlo]
    simp [h4, hlink, hfin]
    rfl
  refine ⟨hmain, ?_, ?_, ?_⟩
  · -- the link count is back at its old value
    exact getLinkcount_restore st ino m h2
      (writeSlot st.entries { sfd_ino := ino, sfd_name := n2 } slot2)
      (writeSlot
        (setLinkcount
          { st with entries :=
            writeSlot st.entries { sfd_ino := ino, sfd_name := n2 } slot2 }
          ino
          (getLinkcount
            { st with entries :=
              writeSlot st.entries { sfd_ino := ino, sfd_name := n2 } slot2 }
            ino + 1)).entries emptyDirEnt slot2)
  · -- no active entry under the new name remains
    intro k e hk hne
    have hE : (renameFailState st n2 ino slot2).entries =
        writeSlot (writeSlot st.entries { sfd_ino := ino, sfd_name := n2 }
          slot2) emptyDirEnt slot2 := rfl
    rw [hE] at hk
    by_cases hks : k = slot2
    · subst hks
      rw [writeSlot_get_self] at hk
      cases hk
      exact absurd rfl hne
    · rcases writeSlot_get_cases _ emptyDirEnt slot2 k hks with hc | hc | hc
      · rw [hc] at hk
        rcases writeSlot_get_cases _ { sfd_ino := ino, sfd_name := n2 }
          slot2 k hks with hc' | hc' | hc'
        · rw [hc'] at hk
          exact hnone e (List.get?_mem hk) hne
        · rw [hc'] at hk
          cases hk
          exact absurd rfl hne
        · rw [hc'] at hk
          cases hk
      · rw [hc] at hk
        cases hk
        exact absurd rfl hne
      · rw [hc] at hk
        cases hk
  · -- the old entry, whose removal failed, is untouched
    have hE : (renameFailState st n2 ino slot2).entries =
        writeSlot (writeSlot st.entries { sfd_ino := ino, sfd_name := n2 }
          slot2) emptyDirEnt slot2 := rfl
    rw [hE]
    rw [writeSlot_get_lt _ emptyDirEnt slot2 slot1
      (Nat.lt_of_lt_of_le hlt1 (writeSlot_length_le _ _ _)) hne12]
    exact writeSlot_get_lt _ _ slot2 slot1 hlt1 hne12

/-- Witness for C1 as amended, on dirC1: old entry "a" at slot 0 (whose
    device write fails), new entry "b" appended at slot 1. -/
theorem C1_amended_witness :
    sfs_rename dirC1 "a" "b" = .ok (EIOdev, renameFailState dirC1 "b" 5 1) ∧
    getLinkcount (renameFailState dirC1 "b" 5 1) 5 =
      FileMeta.linkcount { linkcount := 1, ftype := SFS_TYPE_FILE,
                           dirty := false } ∧
    (∀ k e, (renameFailState dirC1 "b" 5 1).entries.get? k = some e →
       e.sfd_ino ≠ SFS_NOINO → e.sfd_name ≠ "b") ∧
    (renameFailState dirC1 "b" 5 1).entries.get? 0 =
      dirC1.entries.get? 0 :=
  C1_amended_rename_recovery dirC1 "a" "b" 5 0 1
    { linkcount := 1, ftype := SFS_TYPE_FILE, dirty := false } none none
    rfl rfl (by decide) rfl rfl (by decide) rfl (by decide) (by decide)
    ⟨{ sfd_ino := 5, sfd_name := "a" }, rfl, by decide⟩

/-! ## Claim C10 -/

/-- Claim C10: under the invariant that every active directory entry
    references an inode whose link count is positive, the zero-link-count
    panic in sfs_lookonce is unreachable, and every vnode sfs_lookonce
    hands back has link count at least 1. -/
theorem C10_lookonce_positive_linkcount (st : DirSt) (name : String)
    (hinv : ∀ e ∈ st.entries, e.sfd_ino ≠ SFS_NOINO →
      ∃ m, lookupFile st e.sfd_ino = some m ∧ 0 < m.linkcount) :
    (sfs_lookonce st name ≠ .error .zeroLink) ∧
    ∀ r ino slot m, sfs_lookonce st name = .ok (r, some (ino, slot, m)) →
      1 ≤ m.linkcount := by
  cases h1 : findnameScan name st.entries 0 none none with
  | error g =>
    have hg : g = .dupName := findnameScan_error name st.entries 0 none none g h1
    subst hg
    have hval : sfs_lookonce st name = .error .dupName := by
      unfold sfs_lookonce sfs_dir_findname
      rw [h1]
    rw [hval]
    exact ⟨by decide, fun r ino slot m h => Except.noConfusion h⟩
  | ok p =>
    obtain ⟨fnd, es⟩ := p
    cases fnd with
    | none =>
      have hval : sfs_lookonce st name = .ok (ENOENT, none) := by
        unfold sfs_lookonce sfs_dir_findname
        rw [h1]
        simp [ENOENT]
      rw [hval]
      refine ⟨fun hc => Except.noConfusion hc, ?_⟩
      intro r ino slot m h
      simp at h
    | some q =>
      obtain ⟨ino0, slot0⟩ := q
      -- the found inode number comes from an active entry
      have hmem : ∃ e ∈ st.entries, e.sfd_ino = ino0 ∧
          e.sfd_ino ≠ SFS_NOINO := by
        rcases findnameScan_found name st.entries 0 none none ino0 slot0 es h1
          with hL | ⟨j, e, hg, hne, hn, hi, hs⟩
        · cases hL
        · exact ⟨e, List.get?_mem hg, hi.symm, hne⟩
      obtain ⟨e, hmem', hino, hne⟩ := hmem
      obtain ⟨mm, hmm, hlc⟩ := hinv e hmem' hne
      rw [hino] at hmm
      have hnz : mm.linkcount ≠ 0 := by omega
      have hval : sfs_lookonce st name = .ok (0, some (ino0, slot0, mm)) := by
        unfold sfs_lookonce sfs_dir_findname
        rw [h1]
        simp [hmm, hnz]
      rw [hval]
      refine ⟨fun hc => Except.noConfusion hc, ?_⟩
      intro r ino slot m h
      simp only [Except.ok.injEq, Prod.mk.injEq, Option.some.injEq] at h
      obtain ⟨-, -, -, hm⟩ := h
      rw [← hm]
      omega

/-- Witness for C10 on parentD: the invariant holds concretely, and looking
    up "d" yields inode 2 with link count 2 at least 1. -/
theorem C10_witness :
    (sfs_lookonce parentD "d" ≠ .error .zeroLink) ∧
    ∀ r ino slot m, sfs_lookonce parentD "d" = .ok (r, some (ino, slot, m)) →
      1 ≤ m.linkcount :=
  C10_lookonce_positive_linkcount parentD "d" (by decide)

/-! ## Preservation lemmas for the I/O engine -/

theorem bmapHandback_pres (b : Nat) (sv : SVnode) (fs : Sfs) (r : Nat)
    (ob : Option Nat) (sv' : SVnode) (fs' : Sfs)
    (h : bmapHandback b sv fs = .ok (r, ob, sv', fs')) :
    sv' = sv ∧ fs' = fs := by
  unfold bmapHandback sfs_bused at h
  by_cases hb : b ≠ 0
  · rw [if_pos hb] at h
    by_cases hrange : fs.nblocks ≤ b
    · rw [if_pos hrange] at h
      exact Except.noConfusion h
    · rw [if_neg hrange] at h
      dsimp only [] at h
      simp only [decide_eq_true_eq] at h
      by_cases hu : b ∈ fs.used
      · rw [if_pos hu] at h
        cases h
        exact ⟨rfl, rfl⟩
      · rw [if_neg hu] at h
        exact Except.noConfusion h
  · rw [if_neg hb] at h
    cases h
    exact ⟨rfl, rfl⟩

theorem sfs_bmap_pres (sv : SVnode) (fs : Sfs) (fb : Nat) (da : Bool)
    (r : Nat) (ob : Option Nat) (sv' : SVnode) (fs' : Sfs)
    (h : sfs_bmap sv fs fb da = .ok (r, ob, sv', fs')) :
    sv'.sfi_size = sv.sfi_size ∧ sv'.sfi_type = sv.sfi_type := by
  unfold sfs_bmap at h
  by_cases hfb : fb < SFS_NDIRECT
  · rw [if_pos hfb] at h
    dsimp only [] at h
    by_cases hbd : sv.sfi_direct.getD fb 0 = 0 ∧ da = true
    · rw [if_pos hbd] at h
      cases hal : sfs_balloc fs with
      | error f => rw [hal] at h; exact Except.noConfusion h
      | ok t =>
        obtain ⟨r0, b, fs1⟩ := t
        rw [hal] at h
        dsimp only [] at h
        by_cases hr0 : r0 ≠ 0
        · rw [if_pos hr0] at h
          cases h
          exact ⟨rfl, rfl⟩
        · rw [if_neg hr0] at h
          obtain ⟨hsv, _⟩ := bmapHandback_pres _ _ _ _ _ _ _ h
          rw [hsv]
          exact ⟨rfl, rfl⟩
    · rw [if_neg hbd] at h
      obtain ⟨hsv, _⟩ := bmapHandback_pres _ _ _ _ _ _ _ h
      rw [hsv]
      exact ⟨rfl, rfl⟩
  · rw [if_neg hfb] at h
    dsimp only [] at h
    by_cases hid : 0 < (fb - SFS_NDIRECT) / SFS_DBPERIDB
    · rw [if_pos hid] at h
      cases h
      exact ⟨rfl, rfl⟩
    · rw [if_neg hid] at h
      by_cases h0 : sv.sfi_indirect = 0 ∧ ¬da = true
      · rw [if_pos h0] at h
        cases h
        exact ⟨rfl, rfl⟩
      · rw [if_neg h0] at h
        -- resolve the indirect-block step
        have hstep : ∀ r0 sv1 fs1 idbuf,
            sfs_bmap_idstep sv fs = .ok (r0, sv1, fs1, idbuf) →
            sv1.sfi_size = sv.sfi_size ∧ sv1.sfi_type = sv.sfi_type := by
          intro r0 sv1 fs1 idbuf hs
          unfold sfs_bmap_idstep at hs
          by_cases hz : sv.sfi_indirect = 0
          · rw [if_pos hz] at hs
            cases hal : sfs_balloc fs with
            | error f => rw [hal] at hs; exact Except.noConfusion hs
            | ok t =>
              obtain ⟨r', idb, fs1'⟩ := t
              rw [hal] at hs
              dsimp only [] at hs
              by_cases hr' : r' ≠ 0
              · rw [if_pos hr'] at hs; cases hs; exact ⟨rfl, rfl⟩
              · rw [if_neg hr'] at hs; cases hs; exact ⟨rfl, rfl⟩
          · rw [if_neg hz] at hs
            cases hs
            exact ⟨rfl, rfl⟩
        cases hsv : sfs_bmap_idstep sv fs with
        | error f => rw [hsv] at h; exact Except.noConfusion h
        | ok t =>
          obtain ⟨r0, sv1, fs1, idbuf⟩ := t
          obtain ⟨hs1, hs2⟩ := hstep r0 sv1 fs1 idbuf hsv
          rw [hsv] at h
          dsimp only [] at h
          by_cases hr0 : r0 ≠ 0
          · rw [if_pos hr0] at h
            cases h
            exact ⟨hs1, hs2⟩
          · rw [if_neg hr0] at h
            by_cases hbd : idbuf.getD ((fb - SFS_NDIRECT) % SFS_DBPERIDB) 0 = 0
                ∧ da = true
            · rw [if_pos hbd] at h
              cases hal : sfs_balloc fs1 with
              | error f => rw [hal] at h; exact Except.noConfusion h
              | ok t2 =>
                obtain ⟨r2, b, fs2⟩ := t2
                rw [hal] at h
                dsimp only [] at h
                by_cases hr2 : r2 ≠ 0
                · rw [if_pos hr2] at h
                  cases h
                  exact ⟨hs1, hs2⟩
                · rw [if_neg hr2] at h
                  obtain ⟨hsv', _⟩ := bmapHandback_pres _ _ _ _ _ _ _ h
                  rw [hsv']
                  exact ⟨hs1, hs2⟩
            · rw [if_neg hbd] at h
              obtain ⟨hsv', _⟩ := bmapHandback_pres _ _ _ _ _ _ _ h
              rw [hsv']
              exact ⟨hs1, hs2⟩

theorem sfs_partialio_pres (st : IoSt) (skip len r : Nat) (st' : IoSt)
    (h : sfs_partialio_m st skip len = .ok (r, st')) :
    st'.sv.sfi_size = st.sv.sfi_size ∧ st'.uio.uio_rw = st.uio.uio_rw := by
  unfold sfs_partialio_m at h
  by_cases h1 : SFS_BLOCKSIZE < skip + len
  · rw [if_pos h1] at h
    exact Except.noConfusion h
  · rw [if_neg h1] at h
    dsimp only [] at h
    split at h
    · exact Except.noConfusion h
    · rename_i r0 ob sv1 fs1 heq
      obtain ⟨hs, -⟩ := sfs_bmap_pres _ _ _ _ _ _ _ _ heq
      by_cases hr0 : r0 ≠ 0
      · rw [if_pos hr0] at h
        cases h
        exact ⟨hs, rfl⟩
      · rw [if_neg hr0] at h
        by_cases hd : ob.getD 0 = 0
        · rw [if_pos hd] at h
          by_cases hrd : st.uio.uio_rw ≠ UioRW.read
          · rw [if_pos hrd] at h
            exact Except.noConfusion h
          · rw [if_neg hrd] at h
            cases h
            exact ⟨hs, rfl⟩
        · rw [if_neg hd] at h
          by_cases hw : st.uio.uio_rw = UioRW.write
          · rw [if_pos hw] at h
            cases h
            exact ⟨hs, rfl⟩
          · rw [if_neg hw] at h
            cases h
            exact ⟨hs, rfl⟩

theorem sfs_blockio_pres (st : IoSt) (r : Nat) (st' : IoSt)
    (h : sfs_blockio_m st = .ok (r, st')) :
    st'.sv.sfi_size = st.sv.sfi_size ∧ st'.uio.uio_rw = st.uio.uio_rw := by
  unfold sfs_blockio_m at h
  dsimp only [] at h
  split at h
  · exact Except.noConfusion h
  · rename_i r0 ob sv1 fs1 heq
    obtain ⟨hs, -⟩ := sfs_bmap_pres _ _ _ _ _ _ _ _ heq
    by_cases hr0 : r0 ≠ 0
    · rw [if_pos hr0] at h
      cases h
      exact ⟨hs, rfl⟩
    · rw [if_neg hr0] at h
      by_cases hd : ob.getD 0 = 0
      · rw [if_pos hd] at h
        by_cases hrd : st.uio.uio_rw ≠ UioRW.read
        · rw [if_pos hrd] at h
          exact Except.noConfusion h
        · rw [if_neg hrd] at h
          cases h
          exact ⟨hs, rfl⟩
      · rw [if_neg hd] at h
        by_cases hres : st.uio.uio_resid < SFS_BLOCKSIZE
        · rw [if_pos hres] at h
          exact Except.noConfusion h
        · rw [if_neg hres] at h
          by_cases hw : st.uio.uio_rw = UioRW.write
          · rw [if_pos hw] at h
            cases h
            exact ⟨hs, rfl⟩
          · rw [if_neg hw] at h
            cases h
            exact ⟨hs, rfl⟩

theorem blockioLoop_pres (n : Nat) :
    ∀ (st : IoSt) (r : Nat) (st' : IoSt),
      blockioLoop n st = .ok (r, st') →
      st'.sv.sfi_size = st.sv.sfi_size ∧ st'.uio.uio_rw = st.uio.uio_rw := by
  induction n with
  | zero =>
    intro st r st' h
    cases h
    exact ⟨rfl, rfl⟩
  | succ n ih =>
    intro st r st' h
    unfold blockioLoop at h
    split at h
    · exact Except.noConfusion h
    · rename_i r0 st1 heq
      obtain ⟨hs, hw⟩ := sfs_blockio_pres st r0 st1 heq
      by_cases hr0 : r0 ≠ 0
      · rw [if_pos hr0] at h
        cases h
        exact ⟨hs, hw⟩
      · rw [if_neg hr0] at h
        obtain ⟨hs', hw'⟩ := ih st1 r st' h
        exact ⟨hs'.trans hs, hw'.trans hw⟩

theorem sfs_io_tail_pres (st1 : IoSt) (r : Nat) (st' : IoSt)
    (h : sfs_io_tail st1 = .ok (r, st')) :
    st'.sv.sfi_size = st1.sv.sfi_size ∧ st'.uio.uio_rw = st1.uio.uio_rw := by
  unfold sfs_io_tail at h
  by_cases hz : st1.uio.uio_resid = 0
  · rw [if_pos hz] at h
    cases h
    exact ⟨rfl, rfl⟩
  · rw [if_neg hz] at h
    by_cases ha : st1.uio.uio_offset % SFS_BLOCKSIZE ≠ 0
    · rw [if_pos ha] at h
      exact Except.noConfusion h
    · rw [if_neg ha] at h
      split at h
      · exact Except.noConfusion h
      · rename_i r2 st2 heq2
        obtain ⟨hs2, hw2⟩ := blockioLoop_pres _ _ _ _ heq2
        by_cases hr2 : r2 ≠ 0
        · rw [if_pos hr2] at h
          cases h
          exact ⟨hs2, hw2⟩
        · rw [if_neg hr2] at h
          by_cases hres : ¬ st2.uio.uio_resid < SFS_BLOCKSIZE
          · rw [if_pos hres] at h
            exact Except.noConfusion h
          · rw [if_neg hres] at h
            by_cases hpos : 0 < st2.uio.uio_resid
            · rw [if_pos hpos] at h
              obtain ⟨hs3, hw3⟩ := sfs_partialio_pres _ _ _ _ _ h
              exact ⟨hs3.trans hs2, hw3.trans hw2⟩
            · rw [if_neg hpos] at h
              cases h
              exact ⟨hs2, hw2⟩

theorem sfs_io_body_pres (st : IoSt) (r : Nat) (st' : IoSt)
    (h : sfs_io_body st = .ok (r, st')) :
    st'.sv.sfi_size = st.sv.sfi_size ∧ st'.uio.uio_rw = st.uio.uio_rw := by
  unfold sfs_io_body at h
  dsimp only [] at h
  have hstep1 : ∀ (r1 : Nat) (st1 : IoSt),
      (if st.uio.uio_offset % SFS_BLOCKSIZE ≠ 0 then
        sfs_partialio_m st (st.uio.uio_offset % SFS_BLOCKSIZE)
          (if st.uio.uio_resid <
                SFS_BLOCKSIZE - st.uio.uio_offset % SFS_BLOCKSIZE then
            st.uio.uio_resid
          else SFS_BLOCKSIZE - st.uio.uio_offset % SFS_BLOCKSIZE)
       else .ok (0, st)) = .ok (r1, st1) →
      st1.sv.sfi_size = st.sv.sfi_size ∧ st1.uio.uio_rw = st.uio.uio_rw := by
    intro r1 st1 hs
    by_cases hb : st.uio.uio_offset % SFS_BLOCKSIZE ≠ 0
    · rw [if_pos hb] at hs
      exact sfs_partialio_pres _ _ _ _ _ hs
    · rw [if_neg hb] at hs
      cases hs
      exact ⟨rfl, rfl⟩
  split at h
  · exact Except.noConfusion h
  · rename_i r1 st1 heq
    obtain ⟨hs1, hw1⟩ := hstep1 r1 st1 heq
    by_cases hr1 : r1 ≠ 0
    · rw [if_pos hr1] at h
      cases h
      exact ⟨hs1, hw1⟩
    · rw [if_neg hr1] at h
      obtain ⟨hs2, hw2⟩ := sfs_io_tail_pres _ _ _ h
      exact ⟨hs2.trans hs1, hw2.trans hw1⟩

/-! ## Claim C8 -/

/-- Claim C8: on every run of sfs_io that writes, if the final write offset
    exceeds the file's previous size then the size field is set to that
    offset and the inode is marked dirty; when the final offset does not
    exceed the previous size, the size field is unchanged. -/
theorem C8_write_extends_size (st : IoSt) (r : Nat) (st' : IoSt)
    (hw : st.uio.uio_rw = UioRW.write)
    (h : sfs_io_m st = .ok (r, st')) :
    (st.sv.sfi_size < st'.uio.uio_offset →
       st'.sv.sfi_size = st'.uio.uio_offset ∧ st'.sv.sv_dirty = true) ∧
    (st'.uio.uio_offset ≤ st.sv.sfi_size →
       st'.sv.sfi_size = st.sv.sfi_size) := by
  unfold sfs_io_m at h
  rw [hw] at h
  dsimp only [] at h
  cases hb : sfs_io_body st with
  | error f => rw [hb] at h; exact Except.noConfusion h
  | ok p =>
    obtain ⟨r0, st0⟩ := p
    rw [hb] at h
    obtain ⟨hs0, hw0⟩ := sfs_io_body_pres st r0 st0 hb
    rw [hw] at hw0
    dsimp only [Except.map] at h
    unfold sfs_io_out at h
    rw [hw0] at h
    by_cases hcond : UioRW.write = UioRW.write ∧ st0.sv.sfi_size < st0.uio.uio_offset
    · rw [if_pos hcond] at h
      cases h
      refine ⟨fun _ => ⟨rfl, rfl⟩, fun hle => ?_⟩
      exfalso
      rw [hs0] at hcond
      dsimp only [] at hle
      omega
    · rw [if_neg hcond] at h
      cases h
      have hge : st0.uio.uio_offset ≤ st0.sv.sfi_size := by
        rcases Nat.lt_or_ge st0.sv.sfi_size st0.uio.uio_offset with hlt | hge
        · exact absurd ⟨rfl, hlt⟩ hcond
        · exact hge
      refine ⟨fun hgt => ?_, fun _ => hs0⟩
      exfalso
      rw [hs0] at hge
      dsimp only [] at hgt
      omega

/-- Input state for the C8 witness: a 100-byte write at offset 600 on svA
    (size 600). -/
def stC8 : IoSt :=
  { sv := svA, fs := fsA,
    uio := { uio_offset := 600, uio_resid := 100, uio_rw := UioRW.write } }

/-- Output state of the C8 witness run: the write allocated block 7 for
    file block 1, transferred 100 bytes, and grew the size to 700. -/
def stC8' : IoSt :=
  { sv := { sfi_type := SFS_TYPE_FILE, sfi_size := 700, sfi_linkcount := 1,
            sfi_direct := 5 :: 7 :: List.replicate 13 0, sfi_indirect := 0,
            sv_dirty := true },
    fs := { used := [7, 1, 5], freelist := [8, 9],
            idata := [(7, List.replicate SFS_DBPERIDB 0)], nblocks := 100,
            log := [7, 7] },
    uio := { uio_offset := 700, uio_resid := 0, uio_rw := UioRW.write } }

/-- Witness for C8: the concrete extending write at offset 600 ends at
    offset 700 with the size field set to 700 and the inode dirty. -/
theorem C8_witness :
    (stC8.sv.sfi_size < stC8'.uio.uio_offset →
       stC8'.sv.sfi_size = stC8'.uio.uio_offset ∧
       stC8'.sv.sv_dirty = true) ∧
    (stC8'.uio.uio_offset ≤ stC8.sv.sfi_size →
       stC8'.sv.sfi_size = stC8.sv.sfi_size) :=
  C8_write_extends_size stC8 0 stC8' rfl (by decide)

/-! ## Success of the read path (claim C4) -/

/-- Largest byte count a file can map: direct plus one indirect block. -/
def SFS_MAXBYTES : Nat := (SFS_NDIRECT + SFS_DBPERIDB) * SFS_BLOCKSIZE

/-- Consistency of an inode with the allocator (spec section 3: every
    nonzero pointer reachable from the inode is marked used and in
    range), plus the layout facts that the direct array has SFS_NDIRECT
    cells and a pointer block has SFS_DBPERIDB entries. -/
def inodeConsistent (sv : SVnode) (fs : Sfs) : Prop :=
  sv.sfi_direct.length = SFS_NDIRECT ∧
  (∀ b ∈ sv.sfi_direct, b ≠ 0 → b < fs.nblocks ∧ b ∈ fs.used) ∧
  (readIdata fs sv.sfi_indirect).length = SFS_DBPERIDB ∧
  (∀ b ∈ readIdata fs sv.sfi_indirect, b ≠ 0 → b < fs.nblocks ∧ b ∈ fs.used)

/-- On a consistent inode, a read lookup of any mappable block succeeds
    without touching any state: result 0 and some disk block (possibly 0
    for a hole). -/
theorem sfs_bmap_read_ok (sv : SVnode) (fs : Sfs) (fb : Nat)
    (hfb : fb < SFS_NDIRECT + SFS_DBPERIDB) (hc : inodeConsistent sv fs) :
    ∃ b, sfs_bmap sv fs fb false = .ok (0, some b, sv, fs) := by
  obtain ⟨hdl, hdc, hil, hic⟩ := hc
  by_cases hlt : fb < SFS_NDIRECT
  · refine ⟨sv.sfi_direct.getD fb 0, ?_⟩
    unfold sfs_bmap
    rw [if_pos hlt]
    dsimp only []
    rw [if_neg (by simp)]
    unfold bmapHandback
    by_cases hb0 : sv.sfi_direct.getD fb 0 ≠ 0
    · rw [if_pos hb0]
      have hmem : sv.sfi_direct.getD fb 0 ∈ sv.sfi_direct := by
        rw [List.getD_eq_getElem sv.sfi_direct 0 (by omega)]
        exact List.getElem_mem _
      obtain ⟨hrange, hused⟩ := hdc _ hmem hb0
      unfold sfs_bused
      rw [if_neg (by omega)]
      dsimp only []
      simp only [decide_eq_true_eq]
      rw [if_pos hused]
    · rw [if_neg hb0]
  · have hge : SFS_NDIRECT ≤ fb := Nat.le_of_not_lt hlt
    have hidnum : (fb - SFS_NDIRECT) / SFS_DBPERIDB = 0 :=
      Nat.div_eq_of_lt (by omega)
    by_cases hz : sv.sfi_indirect = 0
    · refine ⟨0, ?_⟩
      unfold sfs_bmap
      rw [if_neg hlt]
      dsimp only []
      rw [if_neg (by omega), if_pos (by simp [hz])]
    · refine ⟨(readIdata fs sv.sfi_indirect).getD
        ((fb - SFS_NDIRECT) % SFS_DBPERIDB) 0, ?_⟩
      unfold sfs_bmap
      rw [if_neg hlt]
      dsimp only []
      rw [if_neg (by omega), if_neg (by simp [hz])]
      have hstep : sfs_bmap_idstep sv fs =
          .ok (0, sv, fs, readIdata fs sv.sfi_indirect) := by
        unfold sfs_bmap_idstep
        rw [if_neg hz]
      rw [hstep]
      dsimp only []
      try rw [if_neg (show ¬ ((0 : Nat) ≠ 0) by omega)]
      set b := (readIdata fs sv.sfi_indirect).getD
        ((fb - SFS_NDIRECT) % SFS_DBPERIDB) 0 with hbdef
      rw [if_neg (show ¬ (b = 0 ∧ false = true) by simp)]
      unfold bmapHandback
      by_cases hb0 : b ≠ 0
      · rw [if_pos hb0]
        have hmem : b ∈ readIdata fs sv.sfi_indirect := by
          rw [hbdef]
          rw [List.getD_eq_getElem (readIdata fs sv.sfi_indirect) 0
            (by rw [hil]; exact Nat.mod_lt _ (by decide))]
          exact List.getElem_mem _
        obtain ⟨hrange, hused⟩ := hic _ hmem hb0
        unfold sfs_bused
        rw [if_neg (by omega)]
        dsimp only []
        simp only [decide_eq_true_eq]
        rw [if_pos hused]
      · rw [if_neg hb0]

theorem sfs_partialio_read (st : IoSt) (skip len : Nat)
    (hrw : st.uio.uio_rw = UioRW.read)
    (hsl : skip + len ≤ SFS_BLOCKSIZE)
    (hfb : st.uio.uio_offset / SFS_BLOCKSIZE < SFS_NDIRECT + SFS_DBPERIDB)
    (hc : inodeConsistent st.sv st.fs) :
    sfs_partialio_m st skip len =
      .ok (0, { st with uio := uioAdvance st.uio len }) := by
  obtain ⟨b, hb⟩ := sfs_bmap_read_ok st.sv st.fs
    (st.uio.uio_offset / SFS_BLOCKSIZE) hfb hc
  unfold sfs_partialio_m
  rw [if_neg (show ¬ SFS_BLOCKSIZE < skip + len by omega)]
  dsimp only []
  rw [hrw]
  rw [show decide (UioRW.read = UioRW.write) = false from rfl]
  rw [hb]
  dsimp only []
  try rw [if_neg (show ¬ ((0 : Nat) ≠ 0) by omega)]
  simp only [Option.getD_some]
  by_cases hb0 : b = 0
  · rw [if_pos hb0, if_neg (show ¬ (UioRW.read ≠ UioRW.read) by simp)]
  · rw [if_neg hb0, if_neg (show ¬ (UioRW.read = UioRW.write) by simp)]

theorem sfs_blockio_read (st : IoSt)
    (hrw : st.uio.uio_rw = UioRW.read)
    (hres : SFS_BLOCKSIZE ≤ st.uio.uio_resid)
    (hfb : st.uio.uio_offset / SFS_BLOCKSIZE < SFS_NDIRECT + SFS_DBPERIDB)
    (hc : inodeConsistent st.sv st.fs) :
    sfs_blockio_m st =
      .ok (0, { st with uio := uioAdvance st.uio SFS_BLOCKSIZE }) := by
  obtain ⟨b, hb⟩ := sfs_bmap_read_ok st.sv st.fs
    (st.uio.uio_offset / SFS_BLOCKSIZE) hfb hc
  unfold sfs_blockio_m
  dsimp only []
  rw [hrw]
  rw [show decide (UioRW.read = UioRW.write) = false from rfl]
  rw [hb]
  dsimp only []
  try rw [if_neg (show ¬ ((0 : Nat) ≠ 0) by omega)]
  simp only [Option.getD_some]
  by_cases hb0 : b = 0
  · rw [if_pos hb0, if_neg (show ¬ (UioRW.read ≠ UioRW.read) by simp)]
  · rw [if_neg hb0,
      if_neg (show ¬ st.uio.uio_resid < SFS_BLOCKSIZE by omega),
      if_neg (show ¬ (UioRW.read = UioRW.write) by simp)]

theorem blockioLoop_read (n : Nat) :
    ∀ st : IoSt, st.uio.uio_rw = UioRW.read →
      st.uio.uio_offset % SFS_BLOCKSIZE = 0 →
      SFS_BLOCKSIZE * n ≤ st.uio.uio_resid →
      st.uio.uio_offset + SFS_BLOCKSIZE * n ≤ SFS_MAXBYTES →
      inodeConsistent st.sv st.fs →
      blockioLoop n st = .ok (0, { st with uio :=
        { uio_offset := st.uio.uio_offset + SFS_BLOCKSIZE * n,
          uio_resid := st.uio.uio_resid - SFS_BLOCKSIZE * n,
          uio_rw := st.uio.uio_rw } }) := by
  induction n with
  | zero =>
    intro st h1 h2 h3 h4 h5
    unfold blockioLoop
    simp
  | succ n ih =>
    intro st h1 h2 h3 h4 h5
    have hfb : st.uio.uio_offset / SFS_BLOCKSIZE <
        SFS_NDIRECT + SFS_DBPERIDB := by
      simp only [SFS_BLOCKSIZE, SFS_NDIRECT, SFS_DBPERIDB,
        SFS_MAXBYTES] at h4 ⊢
      omega
    have hres : SFS_BLOCKSIZE ≤ st.uio.uio_resid := by
      simp only [SFS_BLOCKSIZE] at h3 ⊢
      omega
    have hblk := sfs_blockio_read st h1 hres hfb h5
    unfold blockioLoop
    rw [hblk]
    dsimp only []
    try rw [if_neg (show ¬ ((0 : Nat) ≠ 0) by omega)]
    rw [ih { st with uio := uioAdvance st.uio SFS_BLOCKSIZE } h1
      (by simp only [uioAdvance, SFS_BLOCKSIZE] at h2 ⊢; omega)
      (by simp only [uioAdvance, SFS_BLOCKSIZE] at h3 ⊢; omega)
      (by simp only [uioAdvance, SFS_BLOCKSIZE, SFS_MAXBYTES, SFS_NDIRECT,
            SFS_DBPERIDB] at h4 ⊢; omega)
      h5]
    have e1 : st.uio.uio_offset + SFS_BLOCKSIZE + SFS_BLOCKSIZE * n =
        st.uio.uio_offset + SFS_BLOCKSIZE * (n + 1) := by ring
    have e2 : st.uio.uio_resid - SFS_BLOCKSIZE - SFS_BLOCKSIZE * n =
        st.uio.uio_resid - SFS_BLOCKSIZE * (n + 1) := by
      simp only [SFS_BLOCKSIZE]
      omega
    simp only [uioAdvance, e1, e2]

theorem sfs_io_tail_read (st1 : IoSt)
    (hrw : st1.uio.uio_rw = UioRW.read)
    (hal : st1.uio.uio_resid = 0 ∨ st1.uio.uio_offset % SFS_BLOCKSIZE = 0)
    (hbound : st1.uio.uio_offset + st1.uio.uio_resid ≤ SFS_MAXBYTES)
    (hc : inodeConsistent st1.sv st1.fs) :
    sfs_io_tail st1 = .ok (0, { st1 with uio :=
      { uio_offset := st1.uio.uio_offset + st1.uio.uio_resid,
        uio_resid := 0, uio_rw := st1.uio.uio_rw } }) := by
  unfold sfs_io_tail
  by_cases hz : st1.uio.uio_resid = 0
  · rw [if_pos hz]
    have huio : UioSt.mk (st1.uio.uio_offset + st1.uio.uio_resid) 0
        st1.uio.uio_rw = st1.uio := by
      rw [hz, Nat.add_zero, ← hz]
    rw [huio]
  · rw [if_neg hz]
    have hal' : st1.uio.uio_offset % SFS_BLOCKSIZE = 0 := by
      rcases hal with h | h
      · exact absurd h hz
      · exact h
    rw [if_neg (show ¬ (st1.uio.uio_offset % SFS_BLOCKSIZE ≠ 0) by omega)]
    have hloop := blockioLoop_read (st1.uio.uio_resid / SFS_BLOCKSIZE) st1
      hrw hal'
      (by simp only [SFS_BLOCKSIZE]; omega)
      (by
        have := Nat.mul_div_le st1.uio.uio_resid SFS_BLOCKSIZE
        simp only [SFS_BLOCKSIZE, SFS_MAXBYTES, SFS_NDIRECT,
          SFS_DBPERIDB] at *
        omega)
      hc
    rw [hloop]
    dsimp only []
    try rw [if_neg (show ¬ ((0 : Nat) ≠ 0) by omega)]
    have hres2 : st1.uio.uio_resid - SFS_BLOCKSIZE *
        (st1.uio.uio_resid / SFS_BLOCKSIZE) =
        st1.uio.uio_resid % SFS_BLOCKSIZE := by
      simp only [SFS_BLOCKSIZE]
      omega
    rw [if_neg (show ¬ ¬ (st1.uio.uio_resid - SFS_BLOCKSIZE *
        (st1.uio.uio_resid / SFS_BLOCKSIZE) < SFS_BLOCKSIZE) by
      simp only [SFS_BLOCKSIZE]
      omega)]
    by_cases hpos : 0 < st1.uio.uio_resid - SFS_BLOCKSIZE *
        (st1.uio.uio_resid / SFS_BLOCKSIZE)
    · rw [if_pos hpos]
      have htrail := sfs_partialio_read
        { st1 with uio :=
          { uio_offset := st1.uio.uio_offset +
              SFS_BLOCKSIZE * (st1.uio.uio_resid / SFS_BLOCKSIZE),
            uio_resid := st1.uio.uio_resid -
              SFS_BLOCKSIZE * (st1.uio.uio_resid / SFS_BLOCKSIZE),
            uio_rw := st1.uio.uio_rw } } 0
        (st1.uio.uio_resid - SFS_BLOCKSIZE *
          (st1.uio.uio_resid / SFS_BLOCKSIZE))
        hrw
        (by simp only [SFS_BLOCKSIZE]; omega)
        (by simp only [SFS_BLOCKSIZE, SFS_MAXBYTES, SFS_NDIRECT,
              SFS_DBPERIDB] at hbound hpos ⊢
            omega)
        hc
      rw [htrail]
      simp only [uioAdvance]
      have e1 : st1.uio.uio_offset +
          SFS_BLOCKSIZE * (st1.uio.uio_resid / SFS_BLOCKSIZE) +
          (st1.uio.uio_resid -
            SFS_BLOCKSIZE * (st1.uio.uio_resid / SFS_BLOCKSIZE)) =
          st1.uio.uio_offset + st1.uio.uio_resid := by
        simp only [SFS_BLOCKSIZE]
        omega
      rw [e1]
      simp
    · rw [if_neg hpos]
      have e1 : st1.uio.uio_offset +
          SFS_BLOCKSIZE * (st1.uio.uio_resid / SFS_BLOCKSIZE) =
          st1.uio.uio_offset + st1.uio.uio_resid := by
        simp only [SFS_BLOCKSIZE] at *
        omega
      have e2 : st1.uio.uio_resid -
          SFS_BLOCKSIZE * (st1.uio.uio_resid / SFS_BLOCKSIZE) = 0 := by
        simp only [SFS_BLOCKSIZE] at *
        omega
      rw [e1, e2]

theorem sfs_io_body_read (st : IoSt)
    (hrw : st.uio.uio_rw = UioRW.read)
    (hbound : st.uio.uio_offset + st.uio.uio_resid ≤ SFS_MAXBYTES)
    (hc : inodeConsistent st.sv st.fs) :
    sfs_io_body st = .ok (0, { st with uio :=
      { uio_offset := st.uio.uio_offset + st.uio.uio_resid,
        uio_resid := 0, uio_rw := st.uio.uio_rw } }) := by
  unfold sfs_io_body
  dsimp only []
  by_cases hb0 : st.uio.uio_offset % SFS_BLOCKSIZE ≠ 0
  · rw [if_pos hb0]
    have hofflt : st.uio.uio_offset / SFS_BLOCKSIZE <
        SFS_NDIRECT + SFS_DBPERIDB := by
      simp only [SFS_BLOCKSIZE, SFS_NDIRECT, SFS_DBPERIDB,
        SFS_MAXBYTES] at hb0 hbound ⊢
      omega
    by_cases hsr : st.uio.uio_resid <
        SFS_BLOCKSIZE - st.uio.uio_offset % SFS_BLOCKSIZE
    · rw [if_pos hsr]
      rw [sfs_partialio_read st (st.uio.uio_offset % SFS_BLOCKSIZE)
        st.uio.uio_resid hrw
        (by simp only [SFS_BLOCKSIZE] at hsr ⊢; omega) hofflt hc]
      dsimp only []
      try rw [if_neg (show ¬ ((0 : Nat) ≠ 0) by omega)]
      rw [sfs_io_tail_read
        { st with uio := uioAdvance st.uio st.uio.uio_resid } hrw
        (Or.inl (by simp only [uioAdvance]; omega)) (by
          simp only [uioAdvance]
          simp only [SFS_BLOCKSIZE, SFS_MAXBYTES, SFS_NDIRECT,
            SFS_DBPERIDB] at hbound ⊢
          omega) hc]
      simp only [uioAdvance]
      have e1 : st.uio.uio_offset + st.uio.uio_resid +
          (st.uio.uio_resid - st.uio.uio_resid) =
          st.uio.uio_offset + st.uio.uio_resid := by omega
      rw [e1]
    · rw [if_neg hsr]
      rw [sfs_partialio_read st (st.uio.uio_offset % SFS_BLOCKSIZE)
        (SFS_BLOCKSIZE - st.uio.uio_offset % SFS_BLOCKSIZE) hrw
        (by simp only [SFS_BLOCKSIZE]; omega) hofflt hc]
      dsimp only []
      try rw [if_neg (show ¬ ((0 : Nat) ≠ 0) by omega)]
      rw [sfs_io_tail_read
        { st with uio := (uioAdvance st.uio (SFS_BLOCKSIZE - st.uio.uio_offset % SFS_BLOCKSIZE)) } hrw
        (Or.inr (by
          simp only [uioAdvance]
          simp only [SFS_BLOCKSIZE]
          omega)) (by
          simp only [uioAdvance]
          simp only [SFS_BLOCKSIZE, SFS_MAXBYTES, SFS_NDIRECT,
            SFS_DBPERIDB] at hbound hsr ⊢
          omega) hc]
      simp only [uioAdvance]
      have e1 : st.uio.uio_offset +
          (SFS_BLOCKSIZE - st.uio.uio_offset % SFS_BLOCKSIZE) +
          (st.uio.uio_resid -
            (SFS_BLOCKSIZE - st.uio.uio_offset % SFS_BLOCKSIZE)) =
          st.uio.uio_offset + st.uio.uio_resid := by
        simp only [SFS_BLOCKSIZE] at hsr ⊢
        omega
      rw [e1]
  · rw [if_neg hb0]
    dsimp only []
    try rw [if_neg (show ¬ ((0 : Nat) ≠ 0) by omega)]
    exact sfs_io_tail_read st hrw (Or.inr (by omega)) hbound hc

/-! ## Claim C4 -/

/-- Claim C4: for a read of L bytes at offset O on a consistent file of
    size S (with S within the mappable range): if O >= S the read returns
    success with the state untouched (zero bytes transferred, full
    residue); if O < S and O + L > S the read returns success having
    transferred exactly S - O bytes — the offset ends at S and the
    remaining L - (S - O) bytes are reported back as residue, not as an
    error. -/
theorem C4_read_clamped_at_eof (st : IoSt)
    (hrw : st.uio.uio_rw = UioRW.read)
    (hc : inodeConsistent st.sv st.fs)
    (hsz : st.sv.sfi_size ≤ SFS_MAXBYTES) :
    (st.sv.sfi_size ≤ st.uio.uio_offset → sfs_io_m st = .ok (0, st)) ∧
    (st.uio.uio_offset < st.sv.sfi_size →
     st.sv.sfi_size < st.uio.uio_offset + st.uio.uio_resid →
     sfs_io_m st = .ok (0, { st with uio :=
       { uio_offset := st.sv.sfi_size,
         uio_resid := st.uio.uio_offset + st.uio.uio_resid -
           st.sv.sfi_size,
         uio_rw := st.uio.uio_rw } })) := by
  constructor
  · intro hle
    unfold sfs_io_m
    rw [hrw]
    dsimp only []
    rw [if_pos hle]
  · intro hlt hpast
    unfold sfs_io_m
    rw [hrw]
    dsimp only []
    rw [if_neg (show ¬ st.sv.sfi_size ≤ st.uio.uio_offset by omega)]
    rw [if_pos hpast]
    rw [if_neg (show ¬ ¬ (st.uio.uio_offset + st.uio.uio_resid -
      st.sv.sfi_size < st.uio.uio_resid) by omega)]
    rw [sfs_io_body_read
      { st with uio := { st.uio with uio_resid := st.uio.uio_resid -
          (st.uio.uio_offset + st.uio.uio_resid - st.sv.sfi_size) } }
      hrw (by dsimp only []; omega) hc]
    dsimp only [Except.map]
    unfold sfs_io_out
    rw [hrw]
    rw [if_neg (show ¬ (UioRW.read = UioRW.write ∧ _) from
      fun hco => by exact absurd hco.1 (by simp))]
    dsimp only []
    have e1 : st.uio.uio_offset + (st.uio.uio_resid -
        (st.uio.uio_offset + st.uio.uio_resid - st.sv.sfi_size)) =
        st.sv.sfi_size := by omega
    have e2 : (0 : Nat) + (st.uio.uio_offset + st.uio.uio_resid -
        st.sv.sfi_size) =
        st.uio.uio_offset + st.uio.uio_resid - st.sv.sfi_size := by omega
    rw [e1, e2]

/-- Input state for the C4 witness: a 200-byte read at offset 500 of a
    600-byte file. -/
def stC4 : IoSt :=
  { sv := svA, fs := fsA,
    uio := { uio_offset := 500, uio_resid := 200, uio_rw := UioRW.read } }

set_option maxRecDepth 4000 in
/-- Witness for C4 on stC4: the clamped read stops at offset 600 leaving
    100 bytes of residue, and a read at or past EOF leaves the state
    untouched. -/
theorem C4_witness :
    (stC4.sv.sfi_size ≤ stC4.uio.uio_offset →
       sfs_io_m stC4 = .ok (0, stC4)) ∧
    (stC4.uio.uio_offset < stC4.sv.sfi_size →
     stC4.sv.sfi_size < stC4.uio.uio_offset + stC4.uio.uio_resid →
     sfs_io_m stC4 = .ok (0, { stC4 with uio :=
       { uio_offset := stC4.sv.sfi_size,
         uio_resid := stC4.uio.uio_offset + stC4.uio.uio_resid -
           stC4.sv.sfi_size,
         uio_rw := stC4.uio.uio_rw } })) :=
  C4_read_clamped_at_eof stC4 rfl (by unfold inodeConsistent; decide)
    (by decide)

end SFS
